import Mathlib

/-!
Verification of the emoji reconciliation script (`main.py` of DaisyDiscordBot/Emojis).

The script is shallowly embedded: every Python function becomes a Lean
definition of the same name; external effects (HTTP requests, temp-file
creation/unlink, sleeps) are recorded in an explicit event trace, and the
responses of the remote API, the availability of SVG rendering support, and
file contents are supplied by a `World` record of oracles.  Machine-level
details that no statement below depends on (the literal base64 encoding of
file bytes, the rendered textual timestamp) are carried as opaque strings
supplied by the oracle.
-/

namespace DaisyEmojis

/-! ### Python `dict` model

Python dictionaries preserve insertion order; assignment to an existing key
updates it in place, assignment to a fresh key appends, and `del` removes the
key.  We model them as association lists with string keys. -/

/-- Insertion-ordered string-keyed dictionary (Python `dict`). -/
abbrev PyDict (α : Type) : Type := List (String × α)

/-- `d[k]` as an option: first (with the no-duplicate invariant: only) binding. -/
def dlookup {α : Type} : PyDict α → String → Option α
  | [], _ => none
  | (k, v) :: rest, key => if k = key then some v else dlookup rest key

/-- `d[k] = v`: overwrite in place if the key is present, else append. -/
def dinsert {α : Type} : PyDict α → String → α → PyDict α
  | [], k, v => [(k, v)]
  | (k', v') :: rest, k, v =>
      if k' = k then (k, v) :: rest else (k', v') :: dinsert rest k v

/-- `del d[k]`: remove the (first) binding of the key. -/
def derase {α : Type} : PyDict α → String → PyDict α
  | [], _ => []
  | (k', v') :: rest, k => if k' = k then rest else (k', v') :: derase rest k

/-- `d.keys()`, in insertion order. -/
def dkeys {α : Type} (d : PyDict α) : List String := d.map Prod.fst

/-- `k in d`. -/
def dmem {α : Type} (d : PyDict α) (k : String) : Bool := (dlookup d k).isSome

/-! ### Data model -/

/-- An emoji object as the Discord API serialises it: `name`, `id`, and an
optional `animated` flag (`emoji.get('animated', False)` supplies the default). -/
structure RawEmoji where
  name : String
  id : String
  animated : Option Bool
deriving Repr, DecidableEq

/-- A value of the in-memory remote inventory `existing_emojis`:
`{'id': ..., 'animated': ...}` with the default already applied. -/
structure RemoteEmoji where
  id : String
  animated : Bool
deriving Repr, DecidableEq

/-- A `pathlib.Path`, reduced to the attributes the script reads:
the full path string (for `open`/conversion), `Path.stem` and `Path.suffix`. -/
structure PyPath where
  full : String
  stem : String
  suffix : String
deriving Repr, DecidableEq

/-- A value of the local inventory `emoji_files`:
`{'path': ..., 'relative_path': ...}`. -/
structure LocalFile where
  path : PyPath
  relative_path : String
deriving Repr, DecidableEq

/-- A directory entry seen by `Path.rglob('*')`: its path, its path relative
to the scanned folder, and whether it is a regular file. -/
structure FsEntry where
  path : PyPath
  relative_path : String
  isFile : Bool
deriving Repr, DecidableEq

/-- Response to the `GET .../emojis` listing call: HTTP status, parsed
`items` array (meaningful when the status is 200), and `response.text`. -/
structure ListResp where
  status : Nat
  items : List RawEmoji
  text : String
deriving Repr, DecidableEq

/-- Response to a `POST .../emojis` call: HTTP status, `response.text`, and
the parsed emoji object (meaningful when the status is 201). -/
structure PostResp where
  status : Nat
  text : String
  emoji : RawEmoji
deriving Repr, DecidableEq

/-- Response to a `DELETE .../emojis/{id}` call. -/
structure DelResp where
  status : Nat
  text : String
deriving Repr, DecidableEq

/-- One observable external effect of the script. -/
inductive Eff where
  /-- the `requests.get` listing call -/
  | listCall : Eff
  /-- an invocation of `upload_emoji` by the reconciler (line 213) -/
  | uploadCall (name : String) : Eff
  /-- creation of the scratch file `tempfile.NamedTemporaryFile(delete=False)` -/
  | tempCreate (path : String) : Eff
  /-- the `cairosvg.svg2png` rendering call -/
  | render (svgPath : String) : Eff
  /-- `os.unlink` of the scratch file -/
  | unlink (path : String) : Eff
  /-- the `requests.post` Create call with its JSON `image` payload -/
  | post (name : String) (payload : String) : Eff
  /-- an invocation of `delete_emoji` = its single `requests.delete` call -/
  | deleteCall (id : String) (name : String) : Eff
  /-- `time.sleep` of the given number of seconds -/
  | sleep (seconds : Rat) : Eff
deriving Repr, DecidableEq

/-- Oracles for everything outside the script: SVG support (`cairosvg`
importability), success of the rendering call, the scratch path handed out by
`tempfile`, base64-encoded file contents, and the remote API's responses
(Create responses keyed by emoji name, Delete responses keyed by emoji id). -/
structure World where
  svgSupport : Bool
  renderOk : String → Bool
  tempName : String → String
  bytes : String → String
  postResp : String → PostResp
  delResp : String → DelResp

/-- The extension allow-list `SUPPORTED_FORMATS` (line 36). -/
def SUPPORTED_FORMATS : List String := [".png", ".jpg", ".jpeg", ".gif", ".webp", ".svg"]

/-- Python `str.lower()`, character by character (a structurally recursive
model of `String.toLower`; the two agree on the ASCII extensions involved). -/
def strToLower (s : String) : String := String.mk (s.data.map Char.toLower)

/-! ### Image Preparer and Remote Emoji Client -/

/-- `convert_svg_to_png` (lines 42-54).  Returns the scratch PNG path on
success.  The `try` block first creates the scratch file (`delete=False`) and
then calls `cairosvg.svg2png`; the exception path is modelled at the
rendering call, so on failure the scratch file has already been created and
is *not* removed (the function just returns `None`). -/
def convert_svg_to_png (w : World) (svg_path : String) : Option String × List Eff :=
  if w.svgSupport = false then (none, [])
  else
    let temp_png := w.tempName svg_path
    if w.renderOk svg_path then
      (some temp_png, [Eff.tempCreate temp_png, Eff.render svg_path])
    else
      (none, [Eff.tempCreate temp_png, Eff.render svg_path])

/-- Loop body of `get_existing_emojis` (lines 63-67): record one listed emoji
under its name, defaulting the `animated` flag to false. -/
def recordListed (acc : PyDict RemoteEmoji) (e : RawEmoji) : PyDict RemoteEmoji :=
  dinsert acc e.name ⟨e.id, e.animated.getD false⟩

/-- `get_existing_emojis` (lines 56-71): on HTTP 200, fold the `items` array
into a dict name ↦ `{id, animated}`; on any other status, return the empty
dict. -/
def get_existing_emojis (resp : ListResp) : PyDict RemoteEmoji :=
  if resp.status = 200 then resp.items.foldl recordListed []
  else []

/-- `delete_emoji` (lines 73-82): one DELETE call; success iff HTTP 204,
otherwise the diagnostic `f"{status} - {text}"`. -/
def delete_emoji (w : World) (emoji_id : String) (emoji_name : String) :
    (Bool × String) × List Eff :=
  let resp := w.delResp emoji_id
  if resp.status = 204 then
    ((true, "Success"), [Eff.deleteCall emoji_id emoji_name])
  else
    ((false, toString resp.status ++ " - " ++ resp.text),
      [Eff.deleteCall emoji_id emoji_name])

/-- The tail of `upload_emoji` after the SVG branch (lines 102-136): read the
bytes at `readPath`, unlink the scratch file if there is one, classify
`file_ext` into a MIME type (reaching `"Unsupported format"` when the lookup
fails), build the data URI and POST it.  (`upload_emoji` mutates
`file_path`/`file_ext`/`temp_png_path` and falls through; this helper is that
fall-through continuation, with `tr` the trace accumulated so far.) -/
def uploadCore (w : World) (readPath : String) (file_ext : String)
    (emoji_name : String) (temp_png_path : Option String) (tr : List Eff) :
    (Bool × String × Option RawEmoji) × List Eff :=
  let image_data := w.bytes readPath
  let tr := tr ++ (match temp_png_path with
    | some p => [Eff.unlink p]
    | none => [])
  let image_type? : Option String :=
    if file_ext = ".png" then some "image/png"
    else if file_ext = ".jpg" ∨ file_ext = ".jpeg" then some "image/jpeg"
    else if file_ext = ".gif" then some "image/gif"
    else if file_ext = ".webp" then some "image/webp"
    else none
  match image_type? with
  | none => ((false, "Unsupported format", none), tr)
  | some image_type =>
    let data_uri := "data:" ++ image_type ++ ";base64," ++ image_data
    let resp := w.postResp emoji_name
    let tr := tr ++ [Eff.post emoji_name data_uri]
    if resp.status = 201 then
      ((true, "Success", some resp.emoji), tr)
    else
      ((false, toString resp.status ++ " - " ++ resp.text, none), tr)

/-- `upload_emoji` (lines 84-136).  For `.svg` input: fail immediately if SVG
support is missing, else convert (failing if conversion does), then continue
with the scratch PNG; for any other input continue directly. -/
def upload_emoji (w : World) (file_path : PyPath) (emoji_name : String) :
    (Bool × String × Option RawEmoji) × List Eff :=
  let file_ext := strToLower file_path.suffix
  if file_ext = ".svg" then
    if w.svgSupport = false then
      ((false, "SVG support not available (cairosvg not installed)", none), [])
    else
      match convert_svg_to_png w file_path.full with
      | (none, tr) => ((false, "Failed to convert SVG to PNG", none), tr)
      | (some temp_png_path, tr) =>
          uploadCore w temp_png_path ".png" emoji_name (some temp_png_path) tr
  else
    uploadCore w file_path.full file_ext emoji_name none []

/-! ### Report Writer -/

/-- `format_emoji_code` (lines 138-140). -/
def format_emoji_code (emoji_name : String) (emoji_id : String)
    (animated : Bool) : String :=
  let pre := if animated then "a" else ""
  "<" ++ pre ++ ":" ++ emoji_name ++ ":" ++ emoji_id ++ ">"

/-- Python `f"{s:30}"`: left-justify, padding on the right with spaces to
width 30 (strings of length ≥ 30 are unchanged). -/
def pyFormat30 (s : String) : String :=
  s ++ String.mk (List.replicate (30 - s.length) ' ')

/-- The sorted key list `sorted(emojis_dict.keys())` (Python sorts strings
lexicographically). -/
def sortedKeys (d : PyDict RemoteEmoji) : List String :=
  (dkeys d).mergeSort (fun a b => decide (a ≤ b))

/-- The per-emoji loop of `write_emoji_codes` (lines 165-173), keeping for
each iteration the name it handled together with the line it wrote. -/
def reportLines (emojis_dict : PyDict RemoteEmoji) : List (String × String) :=
  (sortedKeys emojis_dict).map (fun emoji_name =>
    let emoji_info := (dlookup emojis_dict emoji_name).getD ⟨"", false⟩
    (emoji_name,
      pyFormat30 emoji_name ++ " " ++
        format_emoji_code emoji_name emoji_info.id emoji_info.animated))

/-- `write_emoji_codes` (lines 159-176) as the list of lines of the report
file.  `now` is the rendered New York timestamp (real-time input).  The
`local_files` argument is taken, and ignored, exactly as in the source. -/
def write_emoji_codes (now : String) (emojis_dict : PyDict RemoteEmoji)
    (local_files : PyDict LocalFile) : List String :=
  ["Discord Application Emoji Codes",
   "Total emojis: " ++ toString emojis_dict.length,
   String.mk (List.replicate 60 '='),
   ""]
  ++ (reportLines emojis_dict).map Prod.snd
  ++ ["", "Last updated on: " ++ now]

/-! ### Local Inventory Scanner -/

/-- Loop body of `find_all_emoji_files` (lines 146-155): keep a regular file
whose lowercased suffix is in the allow-list, keyed by its stem. -/
def scanStep (acc : PyDict LocalFile) (e : FsEntry) : PyDict LocalFile :=
  if e.isFile ∧ strToLower e.path.suffix ∈ SUPPORTED_FORMATS then
    dinsert acc e.path.stem ⟨e.path, e.relative_path⟩
  else acc

/-- `find_all_emoji_files` (lines 142-157): scan all entries (stem collisions
silently overwrite). -/
def find_all_emoji_files (files : List FsEntry) : PyDict LocalFile :=
  files.foldl scanStep []

/-! ### Reconciler -/

/-- The mutable state of `main`'s reconciliation: the in-memory remote
inventory, the five counters, and the accumulated effect trace. -/
structure RunState where
  existing : PyDict RemoteEmoji
  uploaded : Nat
  updated : Nat
  deleted : Nat
  skipped : Nat
  errors : Nat
  trace : List Eff
deriving Repr, DecidableEq

/-- Fresh state over a fetched remote inventory (lines 197-201). -/
def initState (existing : PyDict RemoteEmoji) : RunState :=
  ⟨existing, 0, 0, 0, 0, 0, []⟩

/-- Whether `pat` occurs as a contiguous run inside the second list. -/
def charsContain (pat : List Char) : List Char → Bool
  | [] => pat.isEmpty
  | c :: rest => pat.isPrefixOf (c :: rest) || charsContain pat rest

/-- `"429" in str(message)`. -/
def contains429 (message : String) : Bool :=
  charsContain "429".toList message.toList

/-- One iteration of Pass 1 (lines 204-228): skip when the name is already in
the in-memory inventory, else call `upload_emoji`; on success insert the
created entry, bump `uploaded` and sleep 1.5 s; on failure bump `errors` and
sleep 5 s when the diagnostic contains `"429"`. -/
def processLocal (w : World) (st : RunState) (item : String × LocalFile) :
    RunState :=
  let emoji_name := item.1
  let file_info := item.2
  if (dlookup st.existing emoji_name).isSome then
    { st with skipped := st.skipped + 1 }
  else
    let r := upload_emoji w file_info.path emoji_name
    let st := { st with trace := st.trace ++ [Eff.uploadCall emoji_name] ++ r.2 }
    match r.1 with
    | (true, _, emoji_data) =>
      -- success implies `emoji_data` is `some` (see `upload_emoji_success_some`)
      let e := emoji_data.getD ⟨"", "", none⟩
      { st with
          existing := dinsert st.existing emoji_name ⟨e.id, e.animated.getD false⟩,
          uploaded := st.uploaded + 1,
          trace := st.trace ++ [Eff.sleep (3 / 2 : Rat)] }
    | (false, message, _) =>
      let st := { st with errors := st.errors + 1 }
      if contains429 message then
        { st with trace := st.trace ++ [Eff.sleep (5 : Rat)] }
      else st

/-- `emojis_to_delete = set(existing_emojis.keys()) - set(local_files.keys())`
(line 231), enumerated in inventory key order (Python's set order is
unspecified; no property below depends on the order). -/
def emojisToDelete (existing : PyDict RemoteEmoji)
    (local_files : PyDict LocalFile) : List String :=
  (dkeys existing).filter (fun n => ¬ dmem local_files n)

/-- One iteration of Pass 2 (lines 235-250): look the name up (always found:
the names come from the inventory's own keys), call `delete_emoji`; on
success remove the entry, bump `deleted` and sleep 1.5 s; on failure bump
`errors` and sleep 5 s when the diagnostic contains `"429"`. -/
def processDelete (w : World) (st : RunState) (emoji_name : String) :
    RunState :=
  match dlookup st.existing emoji_name with
  | none => st
  | some info =>
    let r := delete_emoji w info.id emoji_name
    let st := { st with trace := st.trace ++ r.2 }
    match r.1 with
    | (true, _) =>
      { st with
          existing := derase st.existing emoji_name,
          deleted := st.deleted + 1,
          trace := st.trace ++ [Eff.sleep (3 / 2 : Rat)] }
    | (false, message) =>
      let st := { st with errors := st.errors + 1 }
      if contains429 message then
        { st with trace := st.trace ++ [Eff.sleep (5 : Rat)] }
      else st

/-- The two reconciliation passes of `main` (lines 203-252) over a local
inventory and an initial remote inventory. -/
def reconcile (w : World) (local_files : PyDict LocalFile)
    (existing0 : PyDict RemoteEmoji) : RunState :=
  let st1 := local_files.foldl (processLocal w) (initState existing0)
  (emojisToDelete st1.existing local_files).foldl (processDelete w) st1

/-! ### `main` -/

/-- The startup configuration read from the environment. -/
structure Config where
  BOT_TOKEN : Option String
  APPLICATION_ID : Option String

/-- Python truthiness of an optional environment string: unset (`None`) and
the empty string are both falsy. -/
def truthy : Option String → Bool
  | none => false
  | some s => s ≠ ""

/-- The observable outcome of `main`: the process exit code, the final
reconciliation state and report (absent when it aborted at the credential
check), and the full effect trace. -/
structure MainOut where
  exitCode : Nat
  finalState : Option RunState
  report : Option (List String)
  trace : List Eff

/-- `main` (lines 178-267): abort with exit code 1 before any network call if
either credential is missing; otherwise list, scan, reconcile, write the
report, and exit 1 iff `error_count > 0`. -/
def main (cfg : Config) (w : World) (resp : ListResp)
    (files : List FsEntry) (now : String) : MainOut :=
  if ¬ truthy cfg.BOT_TOKEN ∨ ¬ truthy cfg.APPLICATION_ID then
    ⟨1, none, none, []⟩
  else
    let existing0 := get_existing_emojis resp
    let local_files := find_all_emoji_files files
    let st := reconcile w local_files existing0
    let rep := write_emoji_codes now st.existing local_files
    ⟨if st.errors > 0 then 1 else 0, some st, some rep, Eff.listCall :: st.trace⟩

/-! ### Trace counting -/

/-- Number of `upload_emoji` invocations (Create attempts) for a given name. -/
def countUploadCallsFor (tr : List Eff) (n : String) : Nat :=
  tr.countP (fun e => match e with
    | Eff.uploadCall m => decide (m = n)
    | _ => false)

/-- Number of `delete_emoji` invocations (Delete attempts) for a given name. -/
def countDeleteCallsFor (tr : List Eff) (n : String) : Nat :=
  tr.countP (fun e => match e with
    | Eff.deleteCall _ m => decide (m = n)
    | _ => false)

/-- Number of HTTP POST (Create) calls in a trace. -/
def countPosts (tr : List Eff) : Nat :=
  tr.countP (fun e => match e with
    | Eff.post _ _ => true
    | _ => false)

/-! ### Dictionary lemmas -/

theorem dlookup_dinsert_self {α : Type} (d : PyDict α) (k : String) (v : α) :
    dlookup (dinsert d k v) k = some v := by
  induction d with
  | nil => simp [dlookup, dinsert]
  | cons p rest ih =>
    obtain ⟨k', v'⟩ := p
    by_cases h : k' = k <;> simp [dlookup, dinsert, h, ih]

theorem dlookup_dinsert_ne {α : Type} (d : PyDict α) (k m : String) (v : α)
    (h : k ≠ m) : dlookup (dinsert d k v) m = dlookup d m := by
  induction d with
  | nil => simp [dlookup, dinsert, h]
  | cons p rest ih =>
    obtain ⟨k', v'⟩ := p
    by_cases h1 : k' = k
    · subst h1; simp [dlookup, dinsert, h]
    · simp [dlookup, dinsert, h1, ih]

theorem dlookup_derase_ne {α : Type} (d : PyDict α) (k m : String)
    (h : k ≠ m) : dlookup (derase d k) m = dlookup d m := by
  induction d with
  | nil => simp [derase]
  | cons p rest ih =>
    obtain ⟨k', v'⟩ := p
    by_cases h1 : k' = k
    · subst h1; simp [dlookup, derase, h]
    · simp [dlookup, derase, h1, ih]

theorem dkeys_nil {α : Type} : dkeys ([] : PyDict α) = [] := rfl

theorem dkeys_cons {α : Type} (k : String) (v : α) (rest : PyDict α) :
    dkeys ((k, v) :: rest) = k :: dkeys rest := rfl

theorem dlookup_eq_none_iff {α : Type} (d : PyDict α) (k : String) :
    dlookup d k = none ↔ k ∉ dkeys d := by
  induction d with
  | nil => simp [dlookup, dkeys_nil]
  | cons p rest ih =>
    obtain ⟨k', v'⟩ := p
    by_cases h : k' = k
    · subst h; simp [dlookup, dkeys_cons]
    · simp only [dlookup, if_neg h, dkeys_cons, List.mem_cons, ih]
      constructor
      · rintro h1 (h2 | h2)
        · exact h h2.symm
        · exact h1 h2
      · intro h1 h2
        exact h1 (Or.inr h2)

theorem dlookup_isSome_iff {α : Type} (d : PyDict α) (k : String) :
    (dlookup d k).isSome = true ↔ k ∈ dkeys d := by
  rcases h : dlookup d k with _ | v
  · simpa [h] using (dlookup_eq_none_iff d k).mp h
  · have : k ∈ dkeys d := by
      by_contra hk
      rw [(dlookup_eq_none_iff d k).mpr hk] at h
      exact Option.noConfusion h
    simpa [h]

theorem dmem_iff {α : Type} (d : PyDict α) (k : String) :
    dmem d k = true ↔ k ∈ dkeys d := dlookup_isSome_iff d k

theorem mem_dkeys_dinsert {α : Type} (d : PyDict α) (k m : String) (v : α) :
    m ∈ dkeys (dinsert d k v) ↔ m = k ∨ m ∈ dkeys d := by
  induction d with
  | nil => simp [dinsert, dkeys_cons, dkeys_nil]
  | cons p rest ih =>
    obtain ⟨k', v'⟩ := p
    by_cases h : k' = k
    · subst h
      simp [dinsert, dkeys_cons, List.mem_cons]
    · simp only [dinsert, if_neg h, dkeys_cons, List.mem_cons, ih]
      tauto

theorem mem_dkeys_derase {α : Type} (d : PyDict α) (k m : String) :
    m ∈ dkeys (derase d k) → m ∈ dkeys d := by
  induction d with
  | nil => simp [derase]
  | cons p rest ih =>
    obtain ⟨k', v'⟩ := p
    by_cases h : k' = k
    · subst h
      simp only [derase, if_pos rfl, dkeys_cons, List.mem_cons]
      exact fun h1 => Or.inr h1
    · simp only [derase, if_neg h, dkeys_cons, List.mem_cons]
      rintro (h1 | h1)
      · exact Or.inl h1
      · exact Or.inr (ih h1)

theorem nodup_dkeys_dinsert {α : Type} (d : PyDict α) (k : String) (v : α)
    (h : (dkeys d).Nodup) : (dkeys (dinsert d k v)).Nodup := by
  induction d with
  | nil => simp [dinsert, dkeys_cons, dkeys_nil]
  | cons p rest ih =>
    obtain ⟨k', v'⟩ := p
    simp only [dkeys_cons, List.nodup_cons] at h
    by_cases h1 : k' = k
    · subst h1
      simpa [dinsert, dkeys_cons, List.nodup_cons] using h
    · simp only [dinsert, if_neg h1, dkeys_cons, List.nodup_cons]
      refine ⟨?_, ih h.2⟩
      intro hmem
      rcases (mem_dkeys_dinsert rest k k' v).mp hmem with h2 | h2
      · exact h1 h2
      · exact h.1 h2

theorem nodup_dkeys_derase {α : Type} (d : PyDict α) (k : String)
    (h : (dkeys d).Nodup) : (dkeys (derase d k)).Nodup := by
  induction d with
  | nil => simp [derase, dkeys_nil]
  | cons p rest ih =>
    obtain ⟨k', v'⟩ := p
    simp only [dkeys_cons, List.nodup_cons] at h
    by_cases h1 : k' = k
    · subst h1
      simpa [derase] using h.2
    · simp only [derase, if_neg h1, dkeys_cons, List.nodup_cons]
      exact ⟨fun hmem => h.1 (mem_dkeys_derase rest k k' hmem), ih h.2⟩

theorem dlookup_derase_self {α : Type} (d : PyDict α) (k : String)
    (h : (dkeys d).Nodup) : dlookup (derase d k) k = none := by
  induction d with
  | nil => simp [derase, dlookup]
  | cons p rest ih =>
    obtain ⟨k', v'⟩ := p
    simp only [dkeys_cons, List.nodup_cons] at h
    by_cases h1 : k' = k
    · subst h1
      simp only [derase, if_pos rfl]
      exact (dlookup_eq_none_iff rest k').mpr h.1
    · simp [derase, dlookup, h1, ih h.2]

/-! ### Report Writer lemmas -/

theorem sortedKeys_perm (d : PyDict RemoteEmoji) :
    (sortedKeys d).Perm (dkeys d) :=
  List.mergeSort_perm (dkeys d) _

theorem sortedKeys_sorted (d : PyDict RemoteEmoji) :
    List.Sorted (fun a b : String => a ≤ b) (sortedKeys d) := by
  unfold sortedKeys
  refine List.Pairwise.imp ?_ (List.sorted_mergeSort ?_ ?_ (dkeys d))
  · intro a b h1
    simpa using h1
  · intro a b c h1 h2
    simp only [decide_eq_true_eq] at *
    exact le_trans h1 h2
  · intro a b
    simpa using le_total a b

theorem reportLines_map_fst (d : PyDict RemoteEmoji) :
    (reportLines d).map Prod.fst = sortedKeys d := by
  simp only [reportLines, List.map_map]
  exact List.map_id' (sortedKeys d)

/-- C3: the names in the report body are exactly the key set of the final
in-memory inventory (even as a multiset), and they appear in lexicographic
order. -/
theorem report_roundtrip (d : PyDict RemoteEmoji) :
    ((reportLines d).map Prod.fst).Perm (dkeys d) ∧
    (∀ n, n ∈ (reportLines d).map Prod.fst ↔ n ∈ dkeys d) ∧
    List.Sorted (fun a b : String => a ≤ b) ((reportLines d).map Prod.fst) := by
  refine ⟨?_, ?_, ?_⟩
  · rw [reportLines_map_fst]; exact sortedKeys_perm d
  · intro n
    rw [reportLines_map_fst]
    exact (sortedKeys_perm d).mem_iff
  · rw [reportLines_map_fst]; exact sortedKeys_sorted d

/-- The report line as claim C4 words it: the name *left-padded* (spaces on
the left) to the fixed width, then the reference code with no leading colon
in the non-animated form (`<name:id>`). -/
def claimLineC4 (emoji_name : String) (emoji_id : String)
    (animated : Bool) : String :=
  String.mk (List.replicate (30 - emoji_name.length) ' ') ++ emoji_name ++ " " ++
    (if animated then "<a:" ++ emoji_name ++ ":" ++ emoji_id ++ ">"
     else "<" ++ emoji_name ++ ":" ++ emoji_id ++ ">")

/-- C4 fails on the code: for the inventory `{a ↦ (id "1", not animated)}`
the written line is `"a" ++ 29 spaces ++ " <:a:1>"`, not the claimed
`29 spaces ++ "a <a:1>"`; in particular the non-animated reference code the
code produces is `<:a:1>`, not `<a:1>`. -/
theorem report_line_claim_cex :
    reportLines [("a", ⟨"1", false⟩)] ≠ [("a", claimLineC4 "a" "1" false)] ∧
    format_emoji_code "a" "1" false ≠ "<a:1>" := by
  constructor
  · simp only [reportLines, sortedKeys, dkeys, List.map_cons, List.map_nil,
      List.mergeSort_singleton]
    decide
  · decide

/-- C4 (amended): for every emoji in the final inventory, the report contains
the line `name`, left-justified (space-padded on the right) to width 30, a
space, and the reference code, which is `<:name:id>` when the animated flag
is false and `<a:name:id>` when it is true. -/
theorem report_line_format (d : PyDict RemoteEmoji) (n : String)
    (info : RemoteEmoji) (h : dlookup d n = some info) :
    (n, pyFormat30 n ++ " " ++ format_emoji_code n info.id info.animated)
      ∈ reportLines d ∧
    (∀ name eid : String,
      format_emoji_code name eid false = "<:" ++ name ++ ":" ++ eid ++ ">" ∧
      format_emoji_code name eid true = "<a:" ++ name ++ ":" ++ eid ++ ">") := by
  constructor
  · have hn : n ∈ sortedKeys d := by
      refine (sortedKeys_perm d).mem_iff.mpr ?_
      have : (dlookup d n).isSome = true := by simp [h]
      exact (dlookup_isSome_iff d n).mp this
    refine List.mem_map.mpr ⟨n, hn, ?_⟩
    simp [h]
  · intro name eid
    constructor <;> rfl

/-! ### Listing (`get_existing_emojis`) lemmas -/

theorem recordListed_fold_mem (items : List RawEmoji) (acc : PyDict RemoteEmoji)
    (m : String) :
    m ∈ dkeys (items.foldl recordListed acc) ↔
      m ∈ dkeys acc ∨ m ∈ items.map RawEmoji.name := by
  induction items generalizing acc with
  | nil => simp
  | cons e rest ih =>
    simp only [List.foldl_cons, List.map_cons, List.mem_cons, ih,
      recordListed, mem_dkeys_dinsert]
    tauto

theorem recordListed_fold_lookup_not_mem (items : List RawEmoji)
    (acc : PyDict RemoteEmoji) (m : String)
    (h : m ∉ items.map RawEmoji.name) :
    dlookup (items.foldl recordListed acc) m = dlookup acc m := by
  induction items generalizing acc with
  | nil => rfl
  | cons e rest ih =>
    simp only [List.map_cons, List.mem_cons] at h
    push_neg at h
    simp only [List.foldl_cons, recordListed]
    rw [ih _ h.2, dlookup_dinsert_ne _ _ _ _ (fun he => h.1 he.symm)]

theorem recordListed_fold_lookup (items : List RawEmoji)
    (acc : PyDict RemoteEmoji)
    (hnd : (items.map RawEmoji.name).Nodup) :
    ∀ e ∈ items, dlookup (items.foldl recordListed acc) e.name =
      some ⟨e.id, e.animated.getD false⟩ := by
  induction items generalizing acc with
  | nil => simp
  | cons e rest ih =>
    simp only [List.map_cons, List.nodup_cons] at hnd
    intro e' he'
    rcases List.mem_cons.mp he' with rfl | he'
    · simp only [List.foldl_cons]
      rw [recordListed_fold_lookup_not_mem _ _ _ hnd.1]
      exact dlookup_dinsert_self acc e'.name _
    · exact ih _ hnd.2 e' he'

/-! ### `upload_emoji` lemmas -/

/-- Events emitted by the reconciliation loops themselves (as opposed to
events emitted inside `upload_emoji`). -/
def isLoopCall (e : Eff) : Bool :=
  match e with
  | Eff.uploadCall _ => true
  | Eff.deleteCall _ _ => true
  | _ => false

theorem uploadCore_trace_noLoopCalls (w : World) (rp ext n : String)
    (tp : Option String) (tr : List Eff) (h : tr.countP isLoopCall = 0) :
    ((uploadCore w rp ext n tp tr).2).countP isLoopCall = 0 := by
  unfold uploadCore
  rcases tp with _ | p <;>
    simp only [] <;>
    split <;>
    simp [List.countP_append, List.countP_cons, h, isLoopCall,
      -List.countP_eq_zero] <;>
    split <;>
    simp [List.countP_append, List.countP_cons, h, isLoopCall,
      -List.countP_eq_zero]

theorem upload_emoji_svg_conv (w : World) (p : PyPath) (n : String)
    (hs : strToLower p.suffix = ".svg") (hw : w.svgSupport = true)
    (hr : w.renderOk p.full = true) :
    upload_emoji w p n =
      uploadCore w (w.tempName p.full) ".png" n (some (w.tempName p.full))
        [Eff.tempCreate (w.tempName p.full), Eff.render p.full] := by
  rw [upload_emoji]
  simp [hs, hw, convert_svg_to_png, hr]

theorem upload_emoji_svg_conv_fail (w : World) (p : PyPath) (n : String)
    (hs : strToLower p.suffix = ".svg") (hw : w.svgSupport = true)
    (hr : w.renderOk p.full = false) :
    upload_emoji w p n =
      ((false, "Failed to convert SVG to PNG", none),
        [Eff.tempCreate (w.tempName p.full), Eff.render p.full]) := by
  rw [upload_emoji]
  simp [hs, hw, convert_svg_to_png, hr]

theorem upload_emoji_nonsvg (w : World) (p : PyPath) (n : String)
    (hs : strToLower p.suffix ≠ ".svg") :
    upload_emoji w p n =
      uploadCore w p.full (strToLower p.suffix) n none [] := by
  rw [upload_emoji]
  simp [hs]

theorem uploadCore_png_trace (w : World) (rp n : String) (tp : Option String)
    (tr : List Eff) :
    (uploadCore w rp ".png" n tp tr).2 =
      tr ++ (match tp with
              | some q => [Eff.unlink q]
              | none => []) ++
        [Eff.post n ("data:image/png;base64," ++ w.bytes rp)] := by
  by_cases h201 : (w.postResp n).status = 201 <;> simp [uploadCore, h201]

theorem upload_trace_noLoopCalls (w : World) (p : PyPath) (n : String) :
    ((upload_emoji w p n).2).countP isLoopCall = 0 := by
  by_cases hs : strToLower p.suffix = ".svg"
  · cases hv : w.svgSupport
    · simp [upload_emoji, hs, hv]
    · cases hr : w.renderOk p.full
      · simp [upload_emoji_svg_conv_fail w p n hs hv hr, isLoopCall,
          List.countP_cons, -List.countP_eq_zero]
      · rw [upload_emoji_svg_conv w p n hs hv hr]
        exact uploadCore_trace_noLoopCalls w _ ".png" n _ _
          (by simp [isLoopCall, List.countP_cons, -List.countP_eq_zero])
  · rw [upload_emoji_nonsvg w p n hs]
    exact uploadCore_trace_noLoopCalls w p.full _ n none []
      (by simp [-List.countP_eq_zero])

theorem countU_eq_zero_of_noLoopCalls (tr : List Eff) (n : String)
    (h : tr.countP isLoopCall = 0) : countUploadCallsFor tr n = 0 := by
  have hle : tr.countP (fun e => match e with
      | Eff.uploadCall m => decide (m = n)
      | _ => false) ≤ tr.countP isLoopCall :=
    List.countP_mono_left (fun e _ he => by cases e <;> simp_all [isLoopCall])
  unfold countUploadCallsFor
  omega

theorem countD_eq_zero_of_noLoopCalls (tr : List Eff) (n : String)
    (h : tr.countP isLoopCall = 0) : countDeleteCallsFor tr n = 0 := by
  have hle : tr.countP (fun e => match e with
      | Eff.deleteCall _ m => decide (m = n)
      | _ => false) ≤ tr.countP isLoopCall :=
    List.countP_mono_left (fun e _ he => by cases e <;> simp_all [isLoopCall])
  unfold countDeleteCallsFor
  omega

theorem upload_trace_countU (w : World) (p : PyPath) (n m : String) :
    countUploadCallsFor (upload_emoji w p n).2 m = 0 :=
  countU_eq_zero_of_noLoopCalls _ m (upload_trace_noLoopCalls w p n)

theorem upload_trace_countD (w : World) (p : PyPath) (n m : String) :
    countDeleteCallsFor (upload_emoji w p n).2 m = 0 :=
  countD_eq_zero_of_noLoopCalls _ m (upload_trace_noLoopCalls w p n)

/-- C7: uploading an `.svg` when SVG support is unavailable fails immediately
with the descriptive message, produces no effect at all (in particular no
temp-file creation, no rendering call, no POST), and in the reconciliation
loop the only effect of such an item is one Create attempt and an error
counter increment (in particular no 5-second rate-limit sleep, and the
inventory and other counters are untouched). -/
theorem svg_unavailable_behavior (w : World) (p : PyPath) (n rp : String)
    (hs : strToLower p.suffix = ".svg") (hw : w.svgSupport = false) :
    upload_emoji w p n =
      ((false, "SVG support not available (cairosvg not installed)", none), []) ∧
    (∀ st : RunState, dlookup st.existing n = none →
      processLocal w st (n, ⟨p, rp⟩) =
        { st with errors := st.errors + 1,
                  trace := st.trace ++ [Eff.uploadCall n] }) := by
  have h1 : upload_emoji w p n =
      ((false, "SVG support not available (cairosvg not installed)", none), []) := by
    simp [upload_emoji, hs, hw]
  refine ⟨h1, ?_⟩
  intro st hst
  have h429 : contains429 "SVG support not available (cairosvg not installed)" = false := by
    decide
  simp [processLocal, hst, h1, h429]

/-- A world in which SVG support is present but the `cairosvg.svg2png` call
raises. -/
def wRenderFail : World :=
  { svgSupport := true
    renderOk := fun _ => false
    tempName := fun _ => "scratch.png"
    bytes := fun _ => ""
    postResp := fun _ => ⟨201, "", ⟨"", "", none⟩⟩
    delResp := fun _ => ⟨204, ""⟩ }

/-- C8 fails on the code: when the rendering call inside
`convert_svg_to_png` fails, the scratch file has already been created and is
never removed — the upload returns with a `tempCreate` event and no matching
`unlink` in its trace. -/
theorem svg_scratch_leak_cex :
    Eff.tempCreate "scratch.png"
        ∈ (upload_emoji wRenderFail ⟨"icon.svg", "icon", ".svg"⟩ "icon").2 ∧
      Eff.unlink "scratch.png"
        ∉ (upload_emoji wRenderFail ⟨"icon.svg", "icon", ".svg"⟩ "icon").2 := by
  decide

/-- C8 (amended): when the conversion call succeeds, the scratch raster file
is removed (one `unlink`, immediately after its bytes are read and before the
Create POST) on every exit path of the upload — the trace is the same whether
the POST succeeds or fails; but when the conversion call itself fails, the
scratch file created beforehand is *not* removed before the upload returns. -/
theorem svg_scratch_cleanup (w : World) (p : PyPath) (n : String)
    (hs : strToLower p.suffix = ".svg") (hw : w.svgSupport = true) :
    (w.renderOk p.full = true →
      (upload_emoji w p n).2 =
        [Eff.tempCreate (w.tempName p.full), Eff.render p.full,
         Eff.unlink (w.tempName p.full),
         Eff.post n ("data:image/png;base64," ++ w.bytes (w.tempName p.full))]) ∧
    (w.renderOk p.full = false →
      upload_emoji w p n =
        ((false, "Failed to convert SVG to PNG", none),
          [Eff.tempCreate (w.tempName p.full), Eff.render p.full])) := by
  constructor
  · intro hr
    rw [upload_emoji_svg_conv w p n hs hw hr, uploadCore_png_trace]
    simp
  · intro hr
    exact upload_emoji_svg_conv_fail w p n hs hw hr

/-! ### Unreachability of the "Unsupported format" branch (C10) -/

/-- A status diagnostic `f"{status} - {text}"` always contains a dash, so it
can never be the literal `"Unsupported format"`. -/
theorem statusMsg_ne_unsupported (s : Nat) (t : String) :
    toString s ++ " - " ++ t ≠ "Unsupported format" := by
  intro h
  have hd : (toString s ++ " - " ++ t).data = ("Unsupported format" : String).data := by
    rw [h]
  simp only [String.data_append] at hd
  have hmem : '-' ∈ (toString s).data ++ [' ', '-', ' '] ++ t.data :=
    List.mem_append.mpr (Or.inl (List.mem_append.mpr (Or.inr (by decide))))
  rw [hd] at hmem
  exact absurd hmem (by decide)

theorem uploadCore_msg_ne_unsupported (w : World) (rp n : String)
    (ext : String) (tp : Option String) (tr : List Eff)
    (h : ext = ".png" ∨ ext = ".jpg" ∨ ext = ".jpeg" ∨ ext = ".gif" ∨
      ext = ".webp") :
    (uploadCore w rp ext n tp tr).1.2.1 ≠ "Unsupported format" := by
  rcases h with rfl | rfl | rfl | rfl | rfl <;>
    by_cases h201 : (w.postResp n).status = 201 <;>
      simp [uploadCore, h201] <;>
      exact statusMsg_ne_unsupported (w.postResp n).status (w.postResp n).text

theorem mem_dinsert {α : Type} (d : PyDict α) (k : String) (v : α)
    (it : String × α) : it ∈ dinsert d k v → it = (k, v) ∨ it ∈ d := by
  induction d with
  | nil =>
    intro h
    simpa [dinsert] using h
  | cons p rest ih =>
    obtain ⟨k', v'⟩ := p
    intro h
    by_cases h1 : k' = k
    · subst h1
      simp only [dinsert, if_true, eq_self_iff_true, if_pos trivial,
        List.mem_cons] at h
      rcases h with h | h
      · exact Or.inl h
      · exact Or.inr (List.mem_cons.mpr (Or.inr h))
    · simp only [dinsert, if_neg h1, List.mem_cons] at h
      rcases h with h | h
      · exact Or.inr (List.mem_cons.mpr (Or.inl h))
      · rcases ih h with h2 | h2
        · exact Or.inl h2
        · exact Or.inr (List.mem_cons.mpr (Or.inr h2))

/-- Every entry the scanner stores has a lowercased suffix from the
allow-list. -/
theorem scan_fold_suffix (files : List FsEntry) :
    ∀ acc : PyDict LocalFile,
      (∀ it ∈ acc, strToLower (it.2 : LocalFile).path.suffix ∈ SUPPORTED_FORMATS) →
      ∀ it ∈ files.foldl scanStep acc,
        strToLower (it.2 : LocalFile).path.suffix ∈ SUPPORTED_FORMATS := by
  induction files with
  | nil => exact fun acc h => h
  | cons e rest ih =>
    intro acc h
    simp only [List.foldl_cons]
    refine ih _ ?_
    intro it hit
    unfold scanStep at hit
    split at hit
    · rcases mem_dinsert _ _ _ _ hit with rfl | hmem
      · rename_i hc
        exact hc.2
      · exact h it hmem
    · exact h it hit

theorem find_all_suffix (files : List FsEntry) :
    ∀ it ∈ find_all_emoji_files files,
      strToLower (it.2 : LocalFile).path.suffix ∈ SUPPORTED_FORMATS :=
  scan_fold_suffix files [] (by simp)


/-- C10: for every path whose lowercased extension is in the scanner's
allow-list — in particular for every entry the Local Inventory Scanner
produces — `upload_emoji` never returns the "Unsupported format" failure:
the five raster extensions map to a MIME type, and `.svg` either fails
earlier (no support / conversion failure) or is rewritten to `.png` before
the MIME lookup. -/
theorem unsupported_branch_unreachable (w : World) (n : String) :
    (∀ p : PyPath, strToLower p.suffix ∈ SUPPORTED_FORMATS →
      (upload_emoji w p n).1.2.1 ≠ "Unsupported format") ∧
    (∀ files : List FsEntry, ∀ it ∈ find_all_emoji_files files,
      (upload_emoji w (it.2 : LocalFile).path n).1.2.1 ≠ "Unsupported format") := by
  have main : ∀ p : PyPath, strToLower p.suffix ∈ SUPPORTED_FORMATS →
      (upload_emoji w p n).1.2.1 ≠ "Unsupported format" := by
    intro p hp
    by_cases hs : strToLower p.suffix = ".svg"
    · cases hv : w.svgSupport
      · simp [upload_emoji, hs, hv]
      · cases hr : w.renderOk p.full
        · rw [upload_emoji_svg_conv_fail w p n hs hv hr]
          show "Failed to convert SVG to PNG" ≠ "Unsupported format"
          decide
        · rw [upload_emoji_svg_conv w p n hs hv hr]
          exact uploadCore_msg_ne_unsupported w _ n ".png" _ _ (Or.inl rfl)
    · rw [upload_emoji_nonsvg w p n hs]
      refine uploadCore_msg_ne_unsupported w p.full n _ none [] ?_
      simp only [SUPPORTED_FORMATS, List.mem_cons, List.not_mem_nil, or_false] at hp
      rcases hp with h | h | h | h | h | h <;> try (exact absurd h hs)
      all_goals tauto
  exact ⟨main, fun files it hit => main _ (find_all_suffix files it hit)⟩

/-! ### Counting helpers -/

theorem countU_append (a b : List Eff) (n : String) :
    countUploadCallsFor (a ++ b) n =
      countUploadCallsFor a n + countUploadCallsFor b n :=
  List.countP_append _ _ _

theorem countD_append (a b : List Eff) (n : String) :
    countDeleteCallsFor (a ++ b) n =
      countDeleteCallsFor a n + countDeleteCallsFor b n :=
  List.countP_append _ _ _

theorem countU_uploadCall (n m : String) :
    countUploadCallsFor [Eff.uploadCall n] m = if n = m then 1 else 0 := by
  by_cases h : n = m <;> simp [countUploadCallsFor, List.countP_cons, h]

theorem countU_sleep (q : Rat) (m : String) :
    countUploadCallsFor [Eff.sleep q] m = 0 := by
  simp [countUploadCallsFor, List.countP_cons]

theorem countU_deleteCall (i n m : String) :
    countUploadCallsFor [Eff.deleteCall i n] m = 0 := by
  simp [countUploadCallsFor, List.countP_cons]

theorem countD_uploadCall (n m : String) :
    countDeleteCallsFor [Eff.uploadCall n] m = 0 := by
  simp [countDeleteCallsFor, List.countP_cons]

theorem countD_sleep (q : Rat) (m : String) :
    countDeleteCallsFor [Eff.sleep q] m = 0 := by
  simp [countDeleteCallsFor, List.countP_cons]

theorem countD_deleteCall (i n m : String) :
    countDeleteCallsFor [Eff.deleteCall i n] m = if n = m then 1 else 0 := by
  by_cases h : n = m <;> simp [countDeleteCallsFor, List.countP_cons, h]

/-! ### Pass 1 step shapes -/

theorem processLocal_skip (w : World) (st : RunState) (item : String × LocalFile)
    (h : (dlookup st.existing item.1).isSome = true) :
    processLocal w st item = { st with skipped := st.skipped + 1 } := by
  simp [processLocal, h]

theorem processLocal_upload_success (w : World) (st : RunState)
    (item : String × LocalFile)
    (h : dlookup st.existing item.1 = none)
    (hs : (upload_emoji w item.2.path item.1).1.1 = true) :
    processLocal w st item =
      { st with
          existing := dinsert st.existing item.1
            ⟨(((upload_emoji w item.2.path item.1).1.2.2).getD ⟨"", "", none⟩).id,
              ((((upload_emoji w item.2.path item.1).1.2.2).getD
                ⟨"", "", none⟩).animated).getD false⟩,
          uploaded := st.uploaded + 1,
          trace := st.trace ++ [Eff.uploadCall item.1] ++
            (upload_emoji w item.2.path item.1).2 ++ [Eff.sleep (3 / 2 : Rat)] } := by
  unfold processLocal
  rcases hr : upload_emoji w item.2.path item.1 with ⟨⟨b, msg, dat⟩, tr⟩
  rw [hr] at hs
  simp only at hs
  subst hs
  simp [h, hr, List.append_assoc]

theorem processLocal_upload_fail (w : World) (st : RunState)
    (item : String × LocalFile)
    (h : dlookup st.existing item.1 = none)
    (hs : (upload_emoji w item.2.path item.1).1.1 = false) :
    processLocal w st item =
      if contains429 (upload_emoji w item.2.path item.1).1.2.1 then
        { st with
            errors := st.errors + 1,
            trace := st.trace ++ [Eff.uploadCall item.1] ++
              (upload_emoji w item.2.path item.1).2 ++ [Eff.sleep (5 : Rat)] }
      else
        { st with
            errors := st.errors + 1,
            trace := st.trace ++ [Eff.uploadCall item.1] ++
              (upload_emoji w item.2.path item.1).2 } := by
  unfold processLocal
  rcases hr : upload_emoji w item.2.path item.1 with ⟨⟨b, msg, dat⟩, tr⟩
  rw [hr] at hs
  simp only at hs
  subst hs
  by_cases h429 : contains429 msg <;> simp [h, hr, h429, List.append_assoc]

/-! ### Pass 1 per-step facts -/

theorem processLocal_countU (w : World) (st : RunState)
    (item : String × LocalFile) (m : String) :
    countUploadCallsFor (processLocal w st item).trace m =
      countUploadCallsFor st.trace m +
        (if item.1 = m ∧ dlookup st.existing item.1 = none then 1 else 0) := by
  rcases hl : dlookup st.existing item.1 with _ | v
  · by_cases hs : (upload_emoji w item.2.path item.1).1.1 = true
    · rw [processLocal_upload_success w st item hl hs]
      simp only [countU_append, upload_trace_countU, countU_uploadCall,
        countU_sleep]
      by_cases hm : item.1 = m <;> simp [hm]
    · have hs' : (upload_emoji w item.2.path item.1).1.1 = false := by
        revert hs
        cases (upload_emoji w item.2.path item.1).1.1 <;> simp
      rw [processLocal_upload_fail w st item hl hs']
      by_cases h429 : contains429 (upload_emoji w item.2.path item.1).1.2.1 <;>
        simp only [h429, if_pos, if_neg, Bool.false_eq_true, ite_true, ite_false,
          countU_append, upload_trace_countU, countU_uploadCall, countU_sleep] <;>
        by_cases hm : item.1 = m <;> simp [hm]
  · rw [processLocal_skip w st item (by simp [hl])]
    simp [hl]

theorem processLocal_countD (w : World) (st : RunState)
    (item : String × LocalFile) (m : String) :
    countDeleteCallsFor (processLocal w st item).trace m =
      countDeleteCallsFor st.trace m := by
  have hupl := upload_trace_countD w item.2.path item.1 m
  simp only [countDeleteCallsFor] at hupl
  rcases hl : dlookup st.existing item.1 with _ | v
  · by_cases hs : (upload_emoji w item.2.path item.1).1.1 = true
    · rw [processLocal_upload_success w st item hl hs]
      simp [countDeleteCallsFor, List.countP_append, List.countP_cons, hupl]
    · have hs' : (upload_emoji w item.2.path item.1).1.1 = false := by
        revert hs
        cases (upload_emoji w item.2.path item.1).1.1 <;> simp
      rw [processLocal_upload_fail w st item hl hs']
      by_cases h429 : contains429 (upload_emoji w item.2.path item.1).1.2.1 <;>
        simp [h429, countDeleteCallsFor, List.countP_append, List.countP_cons,
          hupl]
  · rw [processLocal_skip w st item (by simp [hl])]

theorem processLocal_lookup_ne (w : World) (st : RunState)
    (item : String × LocalFile) (m : String) (hm : item.1 ≠ m) :
    dlookup (processLocal w st item).existing m = dlookup st.existing m := by
  rcases hl : dlookup st.existing item.1 with _ | v
  · by_cases hs : (upload_emoji w item.2.path item.1).1.1 = true
    · rw [processLocal_upload_success w st item hl hs]
      simp [dlookup_dinsert_ne _ _ _ _ hm]
    · have hs' : (upload_emoji w item.2.path item.1).1.1 = false := by
        revert hs
        cases (upload_emoji w item.2.path item.1).1.1 <;> simp
      rw [processLocal_upload_fail w st item hl hs']
      by_cases h429 : contains429 (upload_emoji w item.2.path item.1).1.2.1 <;>
        simp [h429]
  · rw [processLocal_skip w st item (by simp [hl])]

theorem processLocal_lookup_preserve (w : World) (st : RunState)
    (item : String × LocalFile) (m : String)
    (h : (dlookup st.existing m).isSome = true) :
    dlookup (processLocal w st item).existing m = dlookup st.existing m := by
  by_cases hm : item.1 = m
  · subst hm
    rw [processLocal_skip w st item h]
  · exact processLocal_lookup_ne w st item m hm

theorem processLocal_keys_mono (w : World) (st : RunState)
    (item : String × LocalFile) (m : String)
    (h : m ∈ dkeys st.existing) :
    m ∈ dkeys (processLocal w st item).existing := by
  have h1 : (dlookup st.existing m).isSome = true := (dlookup_isSome_iff _ _).mpr h
  have h2 := processLocal_lookup_preserve w st item m h1
  refine (dlookup_isSome_iff _ _).mp ?_
  rw [h2]
  exact h1

theorem processLocal_keys_subset (w : World) (st : RunState)
    (item : String × LocalFile) (m : String)
    (h : m ∈ dkeys (processLocal w st item).existing) :
    m ∈ dkeys st.existing ∨ m = item.1 := by
  rcases hl : dlookup st.existing item.1 with _ | v
  · by_cases hs : (upload_emoji w item.2.path item.1).1.1 = true
    · rw [processLocal_upload_success w st item hl hs] at h
      simp only at h
      rcases (mem_dkeys_dinsert _ _ _ _).mp h with h2 | h2
      · exact Or.inr h2
      · exact Or.inl h2
    · have hs' : (upload_emoji w item.2.path item.1).1.1 = false := by
        revert hs
        cases (upload_emoji w item.2.path item.1).1.1 <;> simp
      rw [processLocal_upload_fail w st item hl hs'] at h
      by_cases h429 : contains429 (upload_emoji w item.2.path item.1).1.2.1 <;>
        simp [h429] at h <;> exact Or.inl h
  · rw [processLocal_skip w st item (by simp [hl])] at h
    exact Or.inl h

theorem processLocal_nodup (w : World) (st : RunState)
    (item : String × LocalFile) (h : (dkeys st.existing).Nodup) :
    (dkeys (processLocal w st item).existing).Nodup := by
  rcases hl : dlookup st.existing item.1 with _ | v
  · by_cases hs : (upload_emoji w item.2.path item.1).1.1 = true
    · rw [processLocal_upload_success w st item hl hs]
      exact nodup_dkeys_dinsert _ _ _ h
    · have hs' : (upload_emoji w item.2.path item.1).1.1 = false := by
        revert hs
        cases (upload_emoji w item.2.path item.1).1.1 <;> simp
      rw [processLocal_upload_fail w st item hl hs']
      by_cases h429 : contains429 (upload_emoji w item.2.path item.1).1.2.1 <;>
        simp [h429] <;> exact h
  · rw [processLocal_skip w st item (by simp [hl])]
    exact h

theorem processLocal_skipped (w : World) (st : RunState)
    (item : String × LocalFile) :
    (processLocal w st item).skipped =
      st.skipped + (if (dlookup st.existing item.1).isSome = true then 1 else 0) := by
  rcases hl : dlookup st.existing item.1 with _ | v
  · by_cases hs : (upload_emoji w item.2.path item.1).1.1 = true
    · rw [processLocal_upload_success w st item hl hs]
      simp
    · have hs' : (upload_emoji w item.2.path item.1).1.1 = false := by
        revert hs
        cases (upload_emoji w item.2.path item.1).1.1 <;> simp
      rw [processLocal_upload_fail w st item hl hs']
      by_cases h429 : contains429 (upload_emoji w item.2.path item.1).1.2.1 <;>
        simp [h429]
  · rw [processLocal_skip w st item (by simp [hl])]
    simp

theorem processLocal_errors_le (w : World) (st : RunState)
    (item : String × LocalFile) :
    st.errors ≤ (processLocal w st item).errors := by
  rcases hl : dlookup st.existing item.1 with _ | v
  · by_cases hs : (upload_emoji w item.2.path item.1).1.1 = true
    · rw [processLocal_upload_success w st item hl hs]
    · have hs' : (upload_emoji w item.2.path item.1).1.1 = false := by
        revert hs
        cases (upload_emoji w item.2.path item.1).1.1 <;> simp
      rw [processLocal_upload_fail w st item hl hs']
      by_cases h429 : contains429 (upload_emoji w item.2.path item.1).1.2.1 <;>
        simp [h429]
  · rw [processLocal_skip w st item (by simp [hl])]

theorem processLocal_errors_eq_imp_mem (w : World) (st : RunState)
    (item : String × LocalFile)
    (h : (processLocal w st item).errors = st.errors) :
    item.1 ∈ dkeys (processLocal w st item).existing := by
  rcases hl : dlookup st.existing item.1 with _ | v
  · by_cases hs : (upload_emoji w item.2.path item.1).1.1 = true
    · rw [processLocal_upload_success w st item hl hs]
      simp only
      exact (mem_dkeys_dinsert _ _ _ _).mpr (Or.inl rfl)
    · have hs' : (upload_emoji w item.2.path item.1).1.1 = false := by
        revert hs
        cases (upload_emoji w item.2.path item.1).1.1 <;> simp
      rw [processLocal_upload_fail w st item hl hs'] at h
      by_cases h429 : contains429 (upload_emoji w item.2.path item.1).1.2.1 <;>
        simp [h429] at h
  · rw [processLocal_skip w st item (by simp [hl])]
    exact (dlookup_isSome_iff _ _).mp (by simp [hl])

/-! ### Pass 2 step shapes and facts -/

theorem processDelete_not_found (w : World) (st : RunState) (n : String)
    (h : dlookup st.existing n = none) : processDelete w st n = st := by
  simp [processDelete, h]

theorem processDelete_success (w : World) (st : RunState) (n : String)
    (info : RemoteEmoji) (h : dlookup st.existing n = some info)
    (hs : (w.delResp info.id).status = 204) :
    processDelete w st n =
      { st with
          existing := derase st.existing n,
          deleted := st.deleted + 1,
          trace := st.trace ++ [Eff.deleteCall info.id n] ++
            [Eff.sleep (3 / 2 : Rat)] } := by
  simp [processDelete, h, delete_emoji, hs, List.append_assoc]

theorem processDelete_fail (w : World) (st : RunState) (n : String)
    (info : RemoteEmoji) (h : dlookup st.existing n = some info)
    (hs : (w.delResp info.id).status ≠ 204) :
    processDelete w st n =
      if contains429 (toString (w.delResp info.id).status ++ " - " ++
          (w.delResp info.id).text) then
        { st with
            errors := st.errors + 1,
            trace := st.trace ++ [Eff.deleteCall info.id n] ++
              [Eff.sleep (5 : Rat)] }
      else
        { st with
            errors := st.errors + 1,
            trace := st.trace ++ [Eff.deleteCall info.id n] } := by
  by_cases h429 : contains429 (toString (w.delResp info.id).status ++ " - " ++
      (w.delResp info.id).text) <;>
    simp [processDelete, h, delete_emoji, hs, h429, List.append_assoc]

theorem processDelete_countD (w : World) (st : RunState) (n m : String) :
    countDeleteCallsFor (processDelete w st n).trace m =
      countDeleteCallsFor st.trace m +
        (if n = m ∧ (dlookup st.existing n).isSome = true then 1 else 0) := by
  rcases hl : dlookup st.existing n with _ | info
  · rw [processDelete_not_found w st n hl]
    simp
  · by_cases hs : (w.delResp info.id).status = 204
    · rw [processDelete_success w st n info hl hs]
      simp only [countD_append, countD_deleteCall, countD_sleep]
      by_cases hm : n = m <;> simp [hm]
    · rw [processDelete_fail w st n info hl hs]
      by_cases h429 : contains429 (toString (w.delResp info.id).status ++ " - " ++
          (w.delResp info.id).text) <;>
        simp only [h429, ite_true, ite_false, Bool.false_eq_true, countD_append,
          countD_deleteCall, countD_sleep] <;>
        by_cases hm : n = m <;> simp [hm]

theorem processDelete_countU (w : World) (st : RunState) (n m : String) :
    countUploadCallsFor (processDelete w st n).trace m =
      countUploadCallsFor st.trace m := by
  rcases hl : dlookup st.existing n with _ | info
  · rw [processDelete_not_found w st n hl]
  · by_cases hs : (w.delResp info.id).status = 204
    · rw [processDelete_success w st n info hl hs]
      simp [countUploadCallsFor, List.countP_append, List.countP_cons]
    · rw [processDelete_fail w st n info hl hs]
      by_cases h429 : contains429 (toString (w.delResp info.id).status ++ " - " ++
          (w.delResp info.id).text) <;>
        simp [h429, countUploadCallsFor, List.countP_append, List.countP_cons]

theorem processDelete_lookup_ne (w : World) (st : RunState) (n m : String)
    (hm : n ≠ m) :
    dlookup (processDelete w st n).existing m = dlookup st.existing m := by
  rcases hl : dlookup st.existing n with _ | info
  · rw [processDelete_not_found w st n hl]
  · by_cases hs : (w.delResp info.id).status = 204
    · rw [processDelete_success w st n info hl hs]
      simp [dlookup_derase_ne _ _ _ hm]
    · rw [processDelete_fail w st n info hl hs]
      by_cases h429 : contains429 (toString (w.delResp info.id).status ++ " - " ++
          (w.delResp info.id).text) <;>
        simp [h429]

theorem processDelete_keys_subset (w : World) (st : RunState) (n m : String)
    (h : m ∈ dkeys (processDelete w st n).existing) :
    m ∈ dkeys st.existing := by
  rcases hl : dlookup st.existing n with _ | info
  · rw [processDelete_not_found w st n hl] at h
    exact h
  · by_cases hs : (w.delResp info.id).status = 204
    · rw [processDelete_success w st n info hl hs] at h
      simp only at h
      exact mem_dkeys_derase _ _ _ h
    · rw [processDelete_fail w st n info hl hs] at h
      by_cases h429 : contains429 (toString (w.delResp info.id).status ++ " - " ++
          (w.delResp info.id).text) <;>
        simp [h429] at h <;> exact h

theorem processDelete_nodup (w : World) (st : RunState) (n : String)
    (h : (dkeys st.existing).Nodup) :
    (dkeys (processDelete w st n).existing).Nodup := by
  rcases hl : dlookup st.existing n with _ | info
  · rw [processDelete_not_found w st n hl]
    exact h
  · by_cases hs : (w.delResp info.id).status = 204
    · rw [processDelete_success w st n info hl hs]
      exact nodup_dkeys_derase _ _ h
    · rw [processDelete_fail w st n info hl hs]
      by_cases h429 : contains429 (toString (w.delResp info.id).status ++ " - " ++
          (w.delResp info.id).text) <;>
        simp [h429] <;> exact h

theorem processDelete_errors_le (w : World) (st : RunState) (n : String) :
    st.errors ≤ (processDelete w st n).errors := by
  rcases hl : dlookup st.existing n with _ | info
  · rw [processDelete_not_found w st n hl]
  · by_cases hs : (w.delResp info.id).status = 204
    · rw [processDelete_success w st n info hl hs]
    · rw [processDelete_fail w st n info hl hs]
      by_cases h429 : contains429 (toString (w.delResp info.id).status ++ " - " ++
          (w.delResp info.id).text) <;>
        simp [h429]

theorem processDelete_errors_eq_imp_gone (w : World) (st : RunState) (n : String)
    (hnd : (dkeys st.existing).Nodup)
    (h : (processDelete w st n).errors = st.errors) :
    dlookup (processDelete w st n).existing n = none := by
  rcases hl : dlookup st.existing n with _ | info
  · rw [processDelete_not_found w st n hl]
    exact hl
  · by_cases hs : (w.delResp info.id).status = 204
    · rw [processDelete_success w st n info hl hs]
      simp only
      exact dlookup_derase_self _ _ hnd
    · rw [processDelete_fail w st n info hl hs] at h
      by_cases h429 : contains429 (toString (w.delResp info.id).status ++ " - " ++
          (w.delResp info.id).text) <;>
        simp [h429] at h

theorem processDelete_skipped (w : World) (st : RunState) (n : String) :
    (processDelete w st n).skipped = st.skipped ∧
    (processDelete w st n).uploaded = st.uploaded ∧
    (processDelete w st n).deleted =
      st.deleted + (if (dlookup st.existing n).isSome = true ∧
        (w.delResp ((dlookup st.existing n).getD ⟨"", false⟩).id).status = 204
        then 1 else 0) := by
  rcases hl : dlookup st.existing n with _ | info
  · rw [processDelete_not_found w st n hl]
    simp
  · by_cases hs : (w.delResp info.id).status = 204
    · rw [processDelete_success w st n info hl hs]
      simp [hl, hs]
    · rw [processDelete_fail w st n info hl hs]
      by_cases h429 : contains429 (toString (w.delResp info.id).status ++ " - " ++
          (w.delResp info.id).text) <;>
        simp [h429, hl, hs]

/-! ### Pass 1 fold lemmas -/

theorem foldl_processLocal_countD (w : World) (items : List (String × LocalFile)) :
    ∀ (st : RunState) (m : String),
      countDeleteCallsFor (items.foldl (processLocal w) st).trace m =
        countDeleteCallsFor st.trace m := by
  induction items with
  | nil => intro st m; rfl
  | cons item rest ih =>
    intro st m
    simp only [List.foldl_cons]
    rw [ih, processLocal_countD]

theorem foldl_processLocal_lookup_preserve (w : World)
    (items : List (String × LocalFile)) :
    ∀ (st : RunState) (m : String), (dlookup st.existing m).isSome = true →
      dlookup (items.foldl (processLocal w) st).existing m =
        dlookup st.existing m := by
  induction items with
  | nil => intro st m _; rfl
  | cons item rest ih =>
    intro st m h
    simp only [List.foldl_cons]
    have h1 := processLocal_lookup_preserve w st item m h
    rw [ih _ m (by rw [h1]; exact h), h1]

theorem foldl_processLocal_keys_mono (w : World)
    (items : List (String × LocalFile)) :
    ∀ (st : RunState) (m : String), m ∈ dkeys st.existing →
      m ∈ dkeys (items.foldl (processLocal w) st).existing := by
  induction items with
  | nil => intro st m h; exact h
  | cons item rest ih =>
    intro st m h
    simp only [List.foldl_cons]
    exact ih _ m (processLocal_keys_mono w st item m h)

theorem foldl_processLocal_keys_subset (w : World)
    (items : List (String × LocalFile)) :
    ∀ (st : RunState) (m : String),
      m ∈ dkeys (items.foldl (processLocal w) st).existing →
        m ∈ dkeys st.existing ∨ m ∈ items.map Prod.fst := by
  induction items with
  | nil => intro st m h; exact Or.inl h
  | cons item rest ih =>
    intro st m h
    simp only [List.foldl_cons] at h
    rcases ih _ m h with h1 | h1
    · rcases processLocal_keys_subset w st item m h1 with h2 | h2
      · exact Or.inl h2
      · exact Or.inr (by simp [h2])
    · exact Or.inr (by simp [h1])

theorem foldl_processLocal_nodup (w : World)
    (items : List (String × LocalFile)) :
    ∀ st : RunState, (dkeys st.existing).Nodup →
      (dkeys (items.foldl (processLocal w) st).existing).Nodup := by
  induction items with
  | nil => intro st h; exact h
  | cons item rest ih =>
    intro st h
    simp only [List.foldl_cons]
    exact ih _ (processLocal_nodup w st item h)

theorem foldl_processLocal_errors_le (w : World)
    (items : List (String × LocalFile)) :
    ∀ st : RunState, st.errors ≤ (items.foldl (processLocal w) st).errors := by
  induction items with
  | nil => intro st; exact Nat.le_refl _
  | cons item rest ih =>
    intro st
    simp only [List.foldl_cons]
    exact Nat.le_trans (processLocal_errors_le w st item) (ih _)

theorem foldl_processLocal_countU (w : World)
    (items : List (String × LocalFile)) :
    ∀ (st : RunState) (m : String), (items.map Prod.fst).Nodup →
      countUploadCallsFor (items.foldl (processLocal w) st).trace m =
        countUploadCallsFor st.trace m +
          (if m ∈ items.map Prod.fst ∧ dlookup st.existing m = none
            then 1 else 0) := by
  induction items with
  | nil =>
    intro st m _
    simp
  | cons item rest ih =>
    intro st m hnd
    simp only [List.map_cons, List.nodup_cons] at hnd
    simp only [List.foldl_cons]
    rw [ih _ m hnd.2, processLocal_countU]
    by_cases hm : item.1 = m
    · subst hm
      have h1 : item.1 ∉ rest.map Prod.fst := hnd.1
      simp only [List.map_cons, List.mem_cons, true_or, true_and, h1,
        false_and, if_false, Nat.add_zero, and_true, eq_self_iff_true]
    · have h2 : dlookup (processLocal w st item).existing m =
          dlookup st.existing m := processLocal_lookup_ne w st item m hm
      have h3 : ¬(m = item.1) := fun hmm => hm hmm.symm
      simp only [h2, List.map_cons, List.mem_cons, h3, false_or, hm,
        false_and, if_false, Nat.zero_add, Nat.add_zero]

theorem foldl_processLocal_skipped (w : World)
    (items : List (String × LocalFile)) :
    ∀ st : RunState, (items.map Prod.fst).Nodup →
      (items.foldl (processLocal w) st).skipped =
        st.skipped +
          items.countP (fun it => (dlookup st.existing it.1).isSome) := by
  induction items with
  | nil =>
    intro st _
    simp
  | cons item rest ih =>
    intro st hnd
    simp only [List.map_cons, List.nodup_cons] at hnd
    simp only [List.foldl_cons]
    rw [ih _ hnd.2]
    have hcong : rest.countP
        (fun it => (dlookup (processLocal w st item).existing it.1).isSome) =
        rest.countP (fun it => (dlookup st.existing it.1).isSome) := by
      refine List.countP_congr ?_
      intro it hit
      have hne : item.1 ≠ it.1 := by
        intro heq
        exact hnd.1 (heq ▸ List.mem_map_of_mem Prod.fst hit)
      rw [processLocal_lookup_ne w st item it.1 hne]
    rw [hcong, processLocal_skipped, List.countP_cons]
    by_cases h : (dlookup st.existing item.1).isSome = true <;> simp [h] <;> omega

theorem foldl_processLocal_errors_eq (w : World)
    (items : List (String × LocalFile)) :
    ∀ st : RunState,
      (items.foldl (processLocal w) st).errors = st.errors →
      ∀ m ∈ items.map Prod.fst,
        m ∈ dkeys (items.foldl (processLocal w) st).existing := by
  induction items with
  | nil =>
    intro st _ m hm
    simp at hm
  | cons item rest ih =>
    intro st h m hm
    simp only [List.foldl_cons] at h ⊢
    have h1 : st.errors ≤ (processLocal w st item).errors :=
      processLocal_errors_le w st item
    have h2 : (processLocal w st item).errors ≤
        (rest.foldl (processLocal w) (processLocal w st item)).errors :=
      foldl_processLocal_errors_le w rest _
    have hstep : (processLocal w st item).errors = st.errors := by omega
    simp only [List.map_cons] at hm
    rcases List.mem_cons.mp hm with rfl | hm1
    · have h3 := processLocal_errors_eq_imp_mem w st item hstep
      exact foldl_processLocal_keys_mono w rest _ _ h3
    · exact ih _ (by omega) m hm1

theorem foldl_processLocal_all_skip (w : World)
    (items : List (String × LocalFile)) :
    ∀ st : RunState,
      (∀ it ∈ items, (dlookup st.existing it.1).isSome = true) →
      items.foldl (processLocal w) st =
        { st with skipped := st.skipped + items.length } := by
  induction items with
  | nil =>
    intro st _
    simp
  | cons item rest ih =>
    intro st h
    simp only [List.foldl_cons]
    rw [processLocal_skip w st item (h item (List.mem_cons_self _ _))]
    rw [ih { st with skipped := st.skipped + 1 }
      (fun it hit => h it (List.mem_cons_of_mem _ hit))]
    have : st.skipped + 1 + rest.length = st.skipped + (rest.length + 1) := by
      omega
    simp [this]

/-! ### Pass 2 fold lemmas -/

theorem processDelete_mem_preserve_ne (w : World) (st : RunState)
    (n m : String) (hne : n ≠ m) (h : m ∈ dkeys st.existing) :
    m ∈ dkeys (processDelete w st n).existing := by
  have h1 : (dlookup st.existing m).isSome = true := (dlookup_isSome_iff _ _).mpr h
  refine (dlookup_isSome_iff _ _).mp ?_
  rw [processDelete_lookup_ne w st n m hne]
  exact h1

theorem foldl_processDelete_countU (w : World) (dl : List String) :
    ∀ (st : RunState) (m : String),
      countUploadCallsFor (dl.foldl (processDelete w) st).trace m =
        countUploadCallsFor st.trace m := by
  induction dl with
  | nil => intro st m; rfl
  | cons n rest ih =>
    intro st m
    simp only [List.foldl_cons]
    rw [ih, processDelete_countU]

theorem foldl_processDelete_lookup_ne (w : World) (dl : List String) :
    ∀ (st : RunState) (m : String), m ∉ dl →
      dlookup (dl.foldl (processDelete w) st).existing m =
        dlookup st.existing m := by
  induction dl with
  | nil => intro st m _; rfl
  | cons n rest ih =>
    intro st m hm
    simp only [List.mem_cons] at hm
    push_neg at hm
    simp only [List.foldl_cons]
    rw [ih _ m hm.2, processDelete_lookup_ne w st n m (fun h => hm.1 h.symm)]

theorem foldl_processDelete_keys_subset (w : World) (dl : List String) :
    ∀ (st : RunState) (m : String),
      m ∈ dkeys (dl.foldl (processDelete w) st).existing →
        m ∈ dkeys st.existing := by
  induction dl with
  | nil => intro st m h; exact h
  | cons n rest ih =>
    intro st m h
    simp only [List.foldl_cons] at h
    exact processDelete_keys_subset w st n m (ih _ m h)

theorem foldl_processDelete_nodup (w : World) (dl : List String) :
    ∀ st : RunState, (dkeys st.existing).Nodup →
      (dkeys (dl.foldl (processDelete w) st).existing).Nodup := by
  induction dl with
  | nil => intro st h; exact h
  | cons n rest ih =>
    intro st h
    simp only [List.foldl_cons]
    exact ih _ (processDelete_nodup w st n h)

theorem foldl_processDelete_errors_le (w : World) (dl : List String) :
    ∀ st : RunState, st.errors ≤ (dl.foldl (processDelete w) st).errors := by
  induction dl with
  | nil => intro st; exact Nat.le_refl _
  | cons n rest ih =>
    intro st
    simp only [List.foldl_cons]
    exact Nat.le_trans (processDelete_errors_le w st n) (ih _)

theorem foldl_processDelete_countD (w : World) (dl : List String) :
    ∀ (st : RunState) (m : String), dl.Nodup →
      (∀ x ∈ dl, x ∈ dkeys st.existing) →
      countDeleteCallsFor (dl.foldl (processDelete w) st).trace m =
        countDeleteCallsFor st.trace m + (if m ∈ dl then 1 else 0) := by
  induction dl with
  | nil =>
    intro st m _ _
    simp
  | cons n rest ih =>
    intro st m hnd hmem
    simp only [List.nodup_cons] at hnd
    simp only [List.foldl_cons]
    have hmemrest : ∀ x ∈ rest, x ∈ dkeys (processDelete w st n).existing := by
      intro x hx
      have hxn : n ≠ x := fun h => hnd.1 (h ▸ hx)
      exact processDelete_mem_preserve_ne w st n x hxn
        (hmem x (List.mem_cons_of_mem _ hx))
    rw [ih _ m hnd.2 hmemrest, processDelete_countD]
    have hn : (dlookup st.existing n).isSome = true :=
      (dlookup_isSome_iff _ _).mpr (hmem n (List.mem_cons_self _ _))
    by_cases hm : n = m
    · subst hm
      have h1 : n ∉ rest := hnd.1
      simp [hn, h1]
    · have h3 : ¬(m = n) := fun hmm => hm hmm.symm
      simp only [hm, false_and, if_false, Nat.add_zero, List.mem_cons, h3,
        false_or, Nat.zero_add]

theorem foldl_processDelete_errors_eq_gone (w : World) (dl : List String) :
    ∀ st : RunState, dl.Nodup → (dkeys st.existing).Nodup →
      (dl.foldl (processDelete w) st).errors = st.errors →
      ∀ x ∈ dl, dlookup (dl.foldl (processDelete w) st).existing x = none := by
  induction dl with
  | nil =>
    intro st _ _ _ x hx
    simp at hx
  | cons n rest ih =>
    intro st hnd hnodup h x hx
    simp only [List.nodup_cons] at hnd
    simp only [List.foldl_cons] at h ⊢
    have h1 : st.errors ≤ (processDelete w st n).errors :=
      processDelete_errors_le w st n
    have h2 : (processDelete w st n).errors ≤
        (rest.foldl (processDelete w) (processDelete w st n)).errors :=
      foldl_processDelete_errors_le w rest _
    have hstep : (processDelete w st n).errors = st.errors := by omega
    rcases List.mem_cons.mp hx with rfl | hx1
    · have hgone := processDelete_errors_eq_imp_gone w st x hnodup hstep
      rw [foldl_processDelete_lookup_ne w rest _ x hnd.1]
      exact hgone
    · exact ih _ hnd.2 (processDelete_nodup w st n hnodup) (by omega) x hx1

/-! ### Reconcile-level helpers -/

theorem foldl_processDelete_counters (w : World) (dl : List String) :
    ∀ st : RunState, (dl.foldl (processDelete w) st).skipped = st.skipped ∧
      (dl.foldl (processDelete w) st).uploaded = st.uploaded := by
  induction dl with
  | nil => intro st; exact ⟨rfl, rfl⟩
  | cons n rest ih =>
    intro st
    simp only [List.foldl_cons]
    have h1 := processDelete_skipped w st n
    have h2 := ih (processDelete w st n)
    exact ⟨h2.1.trans h1.1, h2.2.trans h1.2.1⟩

theorem mem_emojisToDelete (existing : PyDict RemoteEmoji)
    (L : PyDict LocalFile) (m : String) :
    m ∈ emojisToDelete existing L ↔
      m ∈ dkeys existing ∧ m ∉ dkeys L := by
  unfold emojisToDelete
  rw [List.mem_filter]
  constructor
  · rintro ⟨h1, h2⟩
    refine ⟨h1, ?_⟩
    intro hmem
    simp only [decide_eq_true_eq] at h2
    exact h2 ((dmem_iff _ _).mpr hmem)
  · rintro ⟨h1, h2⟩
    refine ⟨h1, ?_⟩
    simp only [decide_eq_true_eq]
    intro hd
    exact h2 ((dmem_iff _ _).mp hd)

theorem reconcile_countU (w : World) (L : PyDict LocalFile)
    (R : PyDict RemoteEmoji) (hL : (dkeys L).Nodup) (m : String) :
    countUploadCallsFor (reconcile w L R).trace m =
      if m ∈ dkeys L ∧ dlookup R m = none then 1 else 0 := by
  unfold reconcile
  rw [foldl_processDelete_countU,
    foldl_processLocal_countU w L (initState R) m hL]
  simp [initState, countUploadCallsFor, dkeys]

theorem reconcile_pass1_nodup (w : World) (L : PyDict LocalFile)
    (R : PyDict RemoteEmoji) (hR : (dkeys R).Nodup) :
    (dkeys (L.foldl (processLocal w) (initState R)).existing).Nodup :=
  foldl_processLocal_nodup w L (initState R) hR

theorem reconcile_deleteSet_mem (w : World) (L : PyDict LocalFile)
    (R : PyDict RemoteEmoji) (m : String) :
    m ∈ emojisToDelete (L.foldl (processLocal w) (initState R)).existing L ↔
      m ∈ dkeys R ∧ m ∉ dkeys L := by
  rw [mem_emojisToDelete]
  constructor
  · rintro ⟨h1, h2⟩
    rcases foldl_processLocal_keys_subset w L (initState R) m h1 with h3 | h3
    · exact ⟨h3, h2⟩
    · exact absurd h3 h2
  · rintro ⟨h1, h2⟩
    exact ⟨foldl_processLocal_keys_mono w L (initState R) m h1, h2⟩

theorem reconcile_countD (w : World) (L : PyDict LocalFile)
    (R : PyDict RemoteEmoji) (hR : (dkeys R).Nodup) (m : String) :
    countDeleteCallsFor (reconcile w L R).trace m =
      if m ∈ dkeys R ∧ m ∉ dkeys L then 1 else 0 := by
  unfold reconcile
  simp only []
  have hnd : (emojisToDelete
      (L.foldl (processLocal w) (initState R)).existing L).Nodup :=
    List.Nodup.filter _ (reconcile_pass1_nodup w L R hR)
  have hmem : ∀ x ∈ emojisToDelete
      (L.foldl (processLocal w) (initState R)).existing L,
      x ∈ dkeys (L.foldl (processLocal w) (initState R)).existing := by
    intro x hx
    exact ((mem_emojisToDelete _ _ _).mp hx).1
  rw [foldl_processDelete_countD w _ _ m hnd hmem,
    foldl_processLocal_countD]
  have h0 : countDeleteCallsFor (initState R).trace m = 0 := rfl
  rw [h0]
  by_cases hm : m ∈ dkeys R ∧ m ∉ dkeys L
  · have h1 : m ∈ emojisToDelete
        (L.foldl (processLocal w) (initState R)).existing L :=
      (reconcile_deleteSet_mem w L R m).mpr hm
    simp [h1, hm]
  · have h1 : m ∉ emojisToDelete
        (L.foldl (processLocal w) (initState R)).existing L :=
      fun h => hm ((reconcile_deleteSet_mem w L R m).mp h)
    simp [h1, hm]

theorem reconcile_lookup_common (w : World) (L : PyDict LocalFile)
    (R : PyDict RemoteEmoji) (m : String)
    (hmR : m ∈ dkeys R) (hmL : m ∈ dkeys L) :
    dlookup (reconcile w L R).existing m = dlookup R m := by
  unfold reconcile
  simp only []
  have h1 : (dlookup (initState R).existing m).isSome = true :=
    (dlookup_isSome_iff _ _).mpr hmR
  have h2 := foldl_processLocal_lookup_preserve w L (initState R) m h1
  have h3 : m ∉ emojisToDelete
      (L.foldl (processLocal w) (initState R)).existing L := by
    intro hmem
    exact ((mem_emojisToDelete _ _ _).mp hmem).2 hmL
  rw [foldl_processDelete_lookup_ne w _ _ m h3, h2]
  rfl

theorem reconcile_skipped (w : World) (L : PyDict LocalFile)
    (R : PyDict RemoteEmoji) (hL : (dkeys L).Nodup) :
    (reconcile w L R).skipped =
      L.countP (fun it => (dlookup R it.1).isSome) := by
  unfold reconcile
  rw [(foldl_processDelete_counters w _ _).1,
    foldl_processLocal_skipped w L (initState R) hL]
  simp [initState]

/-- C1: after reconciliation of local inventory `L` against remote inventory
`R` (both genuine dicts: no duplicate keys), every name in `L` and not in `R`
has exactly one Create attempt and no Delete attempt; every name in `R` and
not in `L` has exactly one Delete attempt and no Create attempt; every name
in both has neither, is counted in `skipped`, and keeps its remote entry
unchanged in the final inventory. -/
theorem reconcile_diff_calls (w : World) (L : PyDict LocalFile)
    (R : PyDict RemoteEmoji) (hL : (dkeys L).Nodup) (hR : (dkeys R).Nodup) :
    (∀ n ∈ dkeys L, n ∉ dkeys R →
      countUploadCallsFor (reconcile w L R).trace n = 1 ∧
      countDeleteCallsFor (reconcile w L R).trace n = 0) ∧
    (∀ n ∈ dkeys R, n ∉ dkeys L →
      countDeleteCallsFor (reconcile w L R).trace n = 1 ∧
      countUploadCallsFor (reconcile w L R).trace n = 0) ∧
    (∀ n, n ∈ dkeys L → n ∈ dkeys R →
      countUploadCallsFor (reconcile w L R).trace n = 0 ∧
      countDeleteCallsFor (reconcile w L R).trace n = 0 ∧
      dlookup (reconcile w L R).existing n = dlookup R n) ∧
    (reconcile w L R).skipped =
      L.countP (fun it => (dlookup R it.1).isSome) := by
  refine ⟨?_, ?_, ?_, reconcile_skipped w L R hL⟩
  · intro n hnL hnR
    constructor
    · rw [reconcile_countU w L R hL n]
      simp [hnL, (dlookup_eq_none_iff R n).mpr hnR]
    · rw [reconcile_countD w L R hR n]
      simp [hnR]
  · intro n hnR hnL
    constructor
    · rw [reconcile_countD w L R hR n]
      simp [hnR, hnL]
    · rw [reconcile_countU w L R hL n]
      simp [hnL]
  · intro n hnL hnR
    refine ⟨?_, ?_, reconcile_lookup_common w L R n hnR hnL⟩
    · rw [reconcile_countU w L R hL n]
      have : ¬ dlookup R n = none := by
        rw [dlookup_eq_none_iff]
        simpa using hnR
      simp [this]
    · rw [reconcile_countD w L R hR n]
      simp [hnL]

/-! ### Idempotence (C2) -/

theorem reconcile_success_keys (w : World) (L : PyDict LocalFile)
    (R : PyDict RemoteEmoji) (hR : (dkeys R).Nodup)
    (hsucc : (reconcile w L R).errors = 0) :
    ∀ m, m ∈ dkeys (reconcile w L R).existing ↔ m ∈ dkeys L := by
  intro m
  have hre : reconcile w L R =
      (emojisToDelete (L.foldl (processLocal w) (initState R)).existing
        L).foldl (processDelete w) (L.foldl (processLocal w) (initState R)) := rfl
  set st1 := L.foldl (processLocal w) (initState R) with hst1
  set dl := emojisToDelete st1.existing L with hdl
  have hE1 : st1.errors ≤ (reconcile w L R).errors := by
    rw [hre]
    exact foldl_processDelete_errors_le w dl st1
  have hst1err : st1.errors = 0 := by omega
  have hinit : st1.errors = (initState R).errors := by
    simpa [initState] using hst1err
  have hall : ∀ x ∈ L.map Prod.fst, x ∈ dkeys st1.existing :=
    foldl_processLocal_errors_eq w L (initState R) hinit
  constructor
  · intro hm
    by_contra hnotL
    have hmem1 : m ∈ dkeys st1.existing := by
      rw [hre] at hm
      exact foldl_processDelete_keys_subset w dl st1 m hm
    have hmdl : m ∈ dl := by
      rw [hdl]
      exact (mem_emojisToDelete st1.existing L m).mpr ⟨hmem1, hnotL⟩
    have hgone := foldl_processDelete_errors_eq_gone w dl st1
      (List.Nodup.filter _ (reconcile_pass1_nodup w L R hR))
      (reconcile_pass1_nodup w L R hR)
      (by rw [hre] at hsucc; omega) m hmdl
    rw [← hre] at hgone
    exact (dlookup_eq_none_iff _ _).mp hgone hm
  · intro hm
    have h1 : m ∈ dkeys st1.existing := hall m hm
    have h2 : m ∉ dl := by
      rw [hdl]
      intro hmem
      exact ((mem_emojisToDelete st1.existing L m).mp hmem).2 hm
    have h3 : dlookup (reconcile w L R).existing m = dlookup st1.existing m := by
      rw [hre]
      exact foldl_processDelete_lookup_ne w dl st1 m h2
    refine (dlookup_isSome_iff _ _).mp ?_
    rw [h3]
    exact (dlookup_isSome_iff _ _).mpr h1

/-- A reconciliation run in which every local name is already present remotely
skips everything: no call, no counter but `skipped` moves. -/
theorem reconcile_all_skip (w : World) (L : PyDict LocalFile)
    (X : PyDict RemoteEmoji)
    (hall : ∀ it ∈ L, (dlookup X it.1).isSome = true)
    (hdl : emojisToDelete X L = []) :
    reconcile w L X =
      { existing := X, uploaded := 0, updated := 0, deleted := 0,
        skipped := L.length, errors := 0, trace := [] } := by
  unfold reconcile
  rw [foldl_processLocal_all_skip w L (initState X) hall]
  have h1 : ({ initState X with
      skipped := (initState X).skipped + L.length } : RunState) =
      { existing := X, uploaded := 0, updated := 0, deleted := 0,
        skipped := L.length, errors := 0, trace := [] } := by
    simp [initState]
  rw [h1]
  show (emojisToDelete X L).foldl (processDelete w) _ = _
  rw [hdl]
  rfl

/-- C2: if a reconciliation run over local inventory `L` and remote inventory
`R` finishes with zero accumulated errors (i.e. every Create and Delete call
it made succeeded), then a second reconciliation over the same `L` and the
remote inventory the first run produced performs no work: zero uploads, zero
deletions, an empty effect trace (so no network calls at all), every local
item skipped, and an empty delete set.  The second run's API oracle `w2` is
arbitrary since no call is made. -/
theorem reconcile_idempotent (w1 w2 : World) (L : PyDict LocalFile)
    (R : PyDict RemoteEmoji) (hL : (dkeys L).Nodup) (hR : (dkeys R).Nodup)
    (hsucc : (reconcile w1 L R).errors = 0) :
    (reconcile w2 L (reconcile w1 L R).existing).uploaded = 0 ∧
    (reconcile w2 L (reconcile w1 L R).existing).deleted = 0 ∧
    (reconcile w2 L (reconcile w1 L R).existing).skipped = L.length ∧
    (reconcile w2 L (reconcile w1 L R).existing).trace = [] ∧
    emojisToDelete (reconcile w1 L R).existing L = [] := by
  have hkeys := reconcile_success_keys w1 L R hR hsucc
  have hallskip : ∀ it ∈ L,
      (dlookup (reconcile w1 L R).existing it.1).isSome = true := by
    intro it hit
    refine (dlookup_isSome_iff _ _).mpr ?_
    exact (hkeys it.1).mpr (List.mem_map_of_mem Prod.fst hit)
  have hdl2 : emojisToDelete (reconcile w1 L R).existing L = [] := by
    unfold emojisToDelete
    rw [List.filter_eq_nil_iff]
    intro a ha
    simp only [decide_eq_true_eq, Decidable.not_not]
    exact (dmem_iff _ _).mpr ((hkeys a).mp ha)
  have hrun2 : reconcile w2 L (reconcile w1 L R).existing =
      { existing := (reconcile w1 L R).existing, uploaded := 0, updated := 0,
        deleted := 0, skipped := L.length, errors := 0, trace := [] } :=
    reconcile_all_skip w2 L _ hallskip hdl2
  refine ⟨?_, ?_, ?_, ?_, hdl2⟩ <;> rw [hrun2]

/-- C9: when a Create (upload) or Delete call fails with a diagnostic that
contains `"429"`, the loop iteration increments the error counter by exactly
one, appends exactly one 5-second sleep after the failed call, and changes
nothing else (in particular the in-memory inventory is untouched, so the run
simply continues from the same state); the loop itself is a fold, so the
remaining items are processed from that state unchanged; and within a whole
reconciliation no name ever gets a second Create or Delete attempt — the
failed item is abandoned for the run. -/
theorem rate_limit_handling (w : World) :
    (∀ (st : RunState) (n : String) (fi : LocalFile),
      dlookup st.existing n = none →
      (upload_emoji w fi.path n).1.1 = false →
      contains429 (upload_emoji w fi.path n).1.2.1 = true →
      processLocal w st (n, fi) =
        { st with
            errors := st.errors + 1,
            trace := st.trace ++ [Eff.uploadCall n] ++
              (upload_emoji w fi.path n).2 ++ [Eff.sleep (5 : Rat)] }) ∧
    (∀ (st : RunState) (n : String) (info : RemoteEmoji),
      dlookup st.existing n = some info →
      (w.delResp info.id).status ≠ 204 →
      contains429 (toString (w.delResp info.id).status ++ " - " ++
        (w.delResp info.id).text) = true →
      processDelete w st n =
        { st with
            errors := st.errors + 1,
            trace := st.trace ++ [Eff.deleteCall info.id n] ++
              [Eff.sleep (5 : Rat)] }) ∧
    (∀ (L : PyDict LocalFile) (R : PyDict RemoteEmoji),
      (dkeys L).Nodup → (dkeys R).Nodup → ∀ n : String,
        countUploadCallsFor (reconcile w L R).trace n ≤ 1 ∧
        countDeleteCallsFor (reconcile w L R).trace n ≤ 1) ∧
    (∀ (st : RunState) (pre post : List (String × LocalFile))
        (item : String × LocalFile),
      (pre ++ item :: post).foldl (processLocal w) st =
        post.foldl (processLocal w)
          (processLocal w (pre.foldl (processLocal w) st) item)) := by
  refine ⟨?_, ?_, ?_, ?_⟩
  · intro st n fi h0 hfail h429
    rw [processLocal_upload_fail w st (n, fi) h0 hfail]
    rw [if_pos h429]
  · intro st n info h0 hfail h429
    rw [processDelete_fail w st n info h0 hfail]
    rw [if_pos h429]
  · intro L R hL hR n
    constructor
    · rw [reconcile_countU w L R hL n]
      split <;> omega
    · rw [reconcile_countD w L R hR n]
      split <;> omega
  · intro st pre post item
    rw [List.foldl_append]
    rfl

/-- C5: the List operation yields the parsed name ↦ `{id, animated}` mapping
exactly when the HTTP status is 200 — the keys are exactly the listed names
and (when the listed names are distinct, as the remote guarantees) each name
maps to its item's id and defaulted animated flag; on every other status it
yields the empty mapping instead of failing; and with a non-200 listing the
subsequent reconciliation gives every local name (of a collision-free local
inventory) exactly one Create attempt, i.e. every local item is treated as
new. -/
theorem listing_status_behavior (resp : ListResp) :
    (resp.status ≠ 200 → get_existing_emojis resp = []) ∧
    (resp.status = 200 →
      (∀ n, n ∈ dkeys (get_existing_emojis resp) ↔
        n ∈ resp.items.map RawEmoji.name) ∧
      ((resp.items.map RawEmoji.name).Nodup →
        ∀ e ∈ resp.items, dlookup (get_existing_emojis resp) e.name =
          some ⟨e.id, e.animated.getD false⟩)) ∧
    (∀ (w : World) (L : PyDict LocalFile), (dkeys L).Nodup →
      resp.status ≠ 200 → ∀ n ∈ dkeys L,
        countUploadCallsFor
          (reconcile w L (get_existing_emojis resp)).trace n = 1) := by
  refine ⟨?_, ?_, ?_⟩
  · intro h
    simp [get_existing_emojis, h]
  · intro h
    refine ⟨?_, ?_⟩
    · intro n
      simp only [get_existing_emojis, if_pos h]
      simpa [dkeys_nil] using recordListed_fold_mem resp.items [] n
    · intro hnd e he
      simp only [get_existing_emojis, if_pos h]
      exact recordListed_fold_lookup resp.items [] hnd e he
  · intro w L hL h n hn
    have hempty : get_existing_emojis resp = [] := by
      simp [get_existing_emojis, h]
    rw [hempty, reconcile_countU w L [] hL n]
    simp [hn, dlookup]

/-- C6: the process exit code is 1 exactly when a required credential is
missing (unset or empty — Python falsiness), in which case the run stops
before any network call (empty trace), or the accumulated error counter is
nonzero at the end of the run; in every other case it is 0, and 0 and 1 are
the only possible exit codes. -/
theorem exit_code_semantics (cfg : Config) (w : World) (resp : ListResp)
    (files : List FsEntry) (now : String) :
    ((main cfg w resp files now).exitCode = 1 ↔
      ((¬ truthy cfg.BOT_TOKEN = true ∨ ¬ truthy cfg.APPLICATION_ID = true) ∨
        ∃ st, (main cfg w resp files now).finalState = some st ∧
          st.errors ≠ 0)) ∧
    ((main cfg w resp files now).exitCode = 0 ∨
      (main cfg w resp files now).exitCode = 1) ∧
    ((¬ truthy cfg.BOT_TOKEN = true ∨ ¬ truthy cfg.APPLICATION_ID = true) →
      (main cfg w resp files now).trace = []) := by
  by_cases hc : ¬ truthy cfg.BOT_TOKEN = true ∨ ¬ truthy cfg.APPLICATION_ID = true
  · have hm : main cfg w resp files now = ⟨1, none, none, []⟩ := by
      rw [main, if_pos hc]
    rw [hm]
    exact ⟨⟨fun _ => Or.inl hc, fun _ => rfl⟩, Or.inr rfl, fun _ => rfl⟩
  · have hb : truthy cfg.BOT_TOKEN = true := by tauto
    have ha : truthy cfg.APPLICATION_ID = true := by tauto
    have hm : main cfg w resp files now =
        ⟨if (reconcile w (find_all_emoji_files files)
              (get_existing_emojis resp)).errors > 0 then 1 else 0,
          some (reconcile w (find_all_emoji_files files)
            (get_existing_emojis resp)),
          some (write_emoji_codes now
            (reconcile w (find_all_emoji_files files)
              (get_existing_emojis resp)).existing
            (find_all_emoji_files files)),
          Eff.listCall ::
            (reconcile w (find_all_emoji_files files)
              (get_existing_emojis resp)).trace⟩ := by
      rw [main, if_neg hc]
    rw [hm]
    dsimp only
    by_cases he : (reconcile w (find_all_emoji_files files)
        (get_existing_emojis resp)).errors > 0
    · rw [if_pos he]
      refine ⟨⟨fun _ => Or.inr ⟨_, rfl, by omega⟩, fun _ => rfl⟩,
        Or.inr rfl, fun h => absurd h hc⟩
    · rw [if_neg he]
      refine ⟨⟨fun h0 => absurd h0 (by omega), ?_⟩, Or.inl rfl,
        fun h => absurd h hc⟩
      rintro (h1 | ⟨st, hst, hne⟩)
      · exact absurd h1 hc
      · have : st = reconcile w (find_all_emoji_files files)
            (get_existing_emojis resp) := (Option.some.inj hst).symm
        subst this
        omega

/-! ### Concrete instances for witnesses -/

/-- A local `smile.png` entry. -/
def fPng : LocalFile := ⟨⟨"emojis/smile.png", "smile", ".png"⟩, "smile.png"⟩

/-- A remote emoji with id `123`. -/
def eOld : RemoteEmoji := ⟨"123", false⟩

/-- A world where every API call succeeds and SVG rendering works. -/
def wAllOk : World :=
  ⟨true, fun _ => true, fun p => p ++ ".png", fun _ => "QUJD",
    fun _ => ⟨201, "", ⟨"smile", "900", some false⟩⟩, fun _ => ⟨204, ""⟩⟩

/-- A world where every mutating API call is rate-limited (HTTP 429). -/
def w429 : World :=
  ⟨true, fun _ => true, fun p => p ++ ".png", fun _ => "QUJD",
    fun _ => ⟨429, "Too Many Requests", ⟨"", "", none⟩⟩,
    fun _ => ⟨429, "Too Many Requests"⟩⟩

/-- A world without SVG support (`cairosvg` not importable). -/
def wNoSvg : World :=
  ⟨false, fun _ => false, fun p => p, fun _ => "",
    fun _ => ⟨201, "", ⟨"", "", none⟩⟩, fun _ => ⟨204, ""⟩⟩

/-! ### Witnesses -/

theorem reconcile_diff_calls_witness :
    countUploadCallsFor
        (reconcile wAllOk [("smile", fPng)] [("old", eOld)]).trace "smile" = 1 ∧
    countDeleteCallsFor
        (reconcile wAllOk [("smile", fPng)] [("old", eOld)]).trace "old" = 1 := by
  have h := reconcile_diff_calls wAllOk [("smile", fPng)] [("old", eOld)]
    (by decide) (by decide)
  exact ⟨(h.1 "smile" (by decide) (by decide)).1,
    (h.2.1 "old" (by decide) (by decide)).1⟩

theorem reconcile_idempotent_witness :
    (reconcile wAllOk [("smile", fPng)]
      (reconcile wAllOk [("smile", fPng)] [("old", eOld)]).existing).uploaded = 0 ∧
    (reconcile wAllOk [("smile", fPng)]
      (reconcile wAllOk [("smile", fPng)] [("old", eOld)]).existing).deleted = 0 := by
  have h := reconcile_idempotent wAllOk wAllOk [("smile", fPng)] [("old", eOld)]
    (by decide) (by decide) (by decide)
  exact ⟨h.1, h.2.1⟩

theorem report_line_format_witness :
    ("a", pyFormat30 "a" ++ " " ++ format_emoji_code "a" "1" false)
      ∈ reportLines [("a", ⟨"1", false⟩)] := by
  have h := report_line_format [("a", (⟨"1", false⟩ : RemoteEmoji))] "a"
    ⟨"1", false⟩ (by decide)
  exact h.1

theorem listing_status_behavior_witness :
    get_existing_emojis ⟨404, [], "Not Found"⟩ = [] ∧
    countUploadCallsFor (reconcile wAllOk [("smile", fPng)]
      (get_existing_emojis ⟨404, [], "Not Found"⟩)).trace "smile" = 1 := by
  have h := listing_status_behavior ⟨404, [], "Not Found"⟩
  exact ⟨h.1 (by decide),
    h.2.2 wAllOk [("smile", fPng)] (by decide) (by decide) "smile" (by decide)⟩

theorem exit_code_semantics_witness :
    (main ⟨none, some "app"⟩ wAllOk ⟨404, [], ""⟩ [] "now").exitCode = 1 ∧
    (main ⟨none, some "app"⟩ wAllOk ⟨404, [], ""⟩ [] "now").trace = [] := by
  have h := exit_code_semantics ⟨none, some "app"⟩ wAllOk ⟨404, [], ""⟩ [] "now"
  exact ⟨h.1.mpr (Or.inl (Or.inl (by decide))), h.2.2 (Or.inl (by decide))⟩

theorem svg_unavailable_behavior_witness :
    upload_emoji wNoSvg ⟨"emojis/icon.svg", "icon", ".svg"⟩ "icon" =
      ((false, "SVG support not available (cairosvg not installed)", none), []) := by
  have h := svg_unavailable_behavior wNoSvg ⟨"emojis/icon.svg", "icon", ".svg"⟩
    "icon" "icon.svg" (by decide) rfl
  exact h.1

theorem svg_scratch_cleanup_witness :
    (upload_emoji wAllOk ⟨"emojis/icon.svg", "icon", ".svg"⟩ "icon").2 =
      [Eff.tempCreate "emojis/icon.svg.png", Eff.render "emojis/icon.svg",
        Eff.unlink "emojis/icon.svg.png",
        Eff.post "icon" ("data:image/png;base64," ++ "QUJD")] := by
  have h := svg_scratch_cleanup wAllOk ⟨"emojis/icon.svg", "icon", ".svg"⟩
    "icon" (by decide) rfl
  exact h.1 rfl

theorem rate_limit_handling_witness :
    processLocal w429 (initState []) ("smile", fPng) =
      { initState ([] : PyDict RemoteEmoji) with
          errors := 1,
          trace := [Eff.uploadCall "smile"] ++
            (upload_emoji w429 fPng.path "smile").2 ++ [Eff.sleep (5 : Rat)] } := by
  have h := (rate_limit_handling w429).1 (initState []) "smile" fPng
    (by decide) (by decide) (by decide)
  exact h

theorem unsupported_branch_unreachable_witness :
    (upload_emoji wAllOk fPng.path "smile").1.2.1 ≠ "Unsupported format" := by
  have h := unsupported_branch_unreachable wAllOk "smile"
  exact h.1 fPng.path (by decide)

end DaisyEmojis
